import Mathlib

/-!
Shallow embedding of `robocasa/utils/placement_samplers.py`: the object
placement samplers (`UniformRandomSampler`, `SequentialCompositeSampler`,
`MultiRegionSampler`).  Scalars are rationals (every Python float is a
rational), geometry predicates and the external robosuite transform helpers
are abstracted as a record of black-box functions (`Prims`), and the numpy
generator is modelled as an explicit stream of draws.  Python exceptions
become an error type; mutation of spawn-site flags becomes explicit
state passing of a `Store`.
-/

namespace Robocasa

/-- World-frame point: x, y, z rationals. -/
abbrev Vec3 : Type := ℚ × ℚ × ℚ

/-- Quaternion as a plain 4-tuple of components; the convention (wxyz or
xyzw) is positional, exactly as in the numpy arrays of the source. -/
abbrev Quat4 : Type := ℚ × ℚ × ℚ × ℚ

/-- Embeds robosuite convert_quat from wxyz to xyzw: component reordering. -/
def toXYZW (q : Quat4) : Quat4 := (q.2.1, q.2.2.1, q.2.2.2, q.1)

/-- Embeds robosuite convert_quat from xyzw to wxyz: component reordering. -/
def toWXYZ (q : Quat4) : Quat4 := (q.2.2.2, q.1, q.2.1, q.2.2.1)

/-- Secondary attachment point of an object, static data.  Modelled from the
spec: a spawn site has a local offset (its effective bottom offset, consumed
by `get_spawn_bottom_offset`) and may be explicitly disabled (excluded by
`get_random_spawn(exclude_disabled=True)`). -/
structure SpawnSite where
  bottomOffset : Vec3
  disabled : Bool
deriving DecidableEq, Repr

/-- Immutable attributes of a MujocoObject handle as consumed by the
samplers: unique name, vertical bottom/top extents (z components of
`bottom_offset` / `top_offset`), optional intrinsic `init_quat`, whether it
is an `MJCFObject` (checked by the spawn-reference branch), and its list of
spawn sites.  The mutable spawn active flags live in `Store`. -/
structure MObj where
  name : String
  bottom : ℚ
  top : ℚ
  initQuat : Option Quat4
  isMJCF : Bool
  spawnSites : List SpawnSite
deriving DecidableEq, Repr

/-- One placement table entry: (pos, quat, object), quat stored in wxyz. -/
abbrev Placement : Type := Vec3 × Quat4 × MObj

/-- The placement table: ordered association list from object name to
placement, mirroring the insertion-ordered Python dict. -/
abbrev Table : Type := List (String × Placement)

/-- First-match association lookup on a table (Python dict access). -/
def lookupTbl (t : Table) (k : String) : Option Placement :=
  match t with
  | [] => none
  | (k2, v) :: rest => if k2 = k then some v else lookupTbl rest k

/-- Keys of a table in order. -/
def keysOf (t : Table) : List String := t.map (fun e => e.1)

/-- Python `dict.update` for one entry: replace in place if the key exists
(keeping its position), else append at the end. -/
def insertTbl (t : Table) (k : String) (v : Placement) : Table :=
  match t with
  | [] => [(k, v)]
  | (k2, v2) :: rest =>
      if k2 = k then (k2, v) :: rest else (k2, v2) :: insertTbl rest k v

/-- Python `dict.update(delta)`: fold `insertTbl` over the delta in order. -/
def updateTbl (t : Table) (delta : Table) : Table :=
  match delta with
  | [] => t
  | (k, v) :: rest => updateTbl (insertTbl t k v) rest

/-- Mutable spawn-site active flags, keyed by owning object name.  In Python
these flags live on the shared `MJCFObject` instances; here they are an
explicit store threaded through the sampling call. -/
abbrev Store : Type := List (String × List Bool)

/-- Lookup of the flag list for an object; an object with no entry has all
of its spawn sites active (spec: sites are created active with the object). -/
def getFlags (st : Store) (o : MObj) : List Bool :=
  match st.find? (fun e => e.1 = o.name) with
  | some e => e.2
  | none => o.spawnSites.map (fun _ => true)

/-- Embeds `set_spawn_active(spawn_id, False)` on the object named `n`
(modelled from the spec: deactivating flips the indexed flag). -/
def setSpawnInactive (st : Store) (o : MObj) (i : ℕ) : Store :=
  (o.name, (getFlags st o).set i false) :: (st.filter (fun e => ¬ e.1 = o.name))

/-- Active flag of spawn `i` of object `o` in store `st`. -/
def spawnActive (st : Store) (o : MObj) (i : ℕ) : Bool :=
  (getFlags st o).getD i false

/-- Explicit model of the numpy generator: a stream of unit-interval draws
(`reals`, consumed by `uniform`) and a stream of index draws (`ints`,
consumed by `choice`).  Each consumption pops the head of a stream; equal
states yield equal draw sequences. -/
structure Rng where
  reals : List ℚ
  ints : List ℕ
deriving DecidableEq, Repr

/-- One unit draw u; `uniform(low, high)` returns low + (high - low) * u. -/
def Rng.nextReal (r : Rng) : ℚ × Rng :=
  (r.reals.headD 0, { r with reals := r.reals.tail })

/-- Embeds `rng.uniform(high=hi, low=lo)`. -/
def Rng.uniform (r : Rng) (lo hi : ℚ) : ℚ × Rng :=
  let p := r.nextReal
  (lo + (hi - lo) * p.1, p.2)

/-- One index draw reduced modulo `n` (for `rng.choice` over `n` items). -/
def Rng.nextNat (r : Rng) (n : ℕ) : ℕ × Rng :=
  ((r.ints.headD 0) % n, { r with ints := r.ints.tail })

/-- Embeds `rng.choice(l)` over a list: uniform index; `none` on an empty
list (numpy raises there). -/
def Rng.choose {α : Type} (r : Rng) (l : List α) : Option α × Rng :=
  if l.isEmpty then (none, r)
  else
    let p := r.nextNat l.length
    (l.get? p.1, p.2)

/-- Python exceptions raised by the samplers.  `randomization` is
robosuite's RandomizationError (the PlacementExhausted signal of the spec),
carrying the unplaced object's name. -/
inductive SampleErr where
  | randomization (objName : String)
  | assertionError (msg : String)
  | valueError (msg : String)
  | typeError (msg : String)
  | attributeError (msg : String)
  | keyError (msg : String)
deriving DecidableEq, Repr

/-- External primitives consumed as black boxes (spec section 1: geometry
predicates and robosuite transform utilities are out of scope, specified at
the interface boundary only).  `twoPi` is the float constant `2 * np.pi`;
`refRotQuat r` is `convert_quat(mat2quat(euler2mat([0, 0, r])), to="wxyz")`;
`bbox3` returns the first three world-frame bounding-box points of
`get_bbox_points(trans, rot)`. -/
structure Prims where
  twoPi : ℚ
  cos : ℚ → ℚ
  sin : ℚ → ℚ
  rotate2d : ℚ × ℚ → ℚ → ℚ × ℚ
  qmul : Quat4 → Quat4 → Quat4
  refRotQuat : ℚ → Quat4
  objInRegion : MObj → Vec3 → Quat4 → Vec3 → Vec3 → Vec3 → Bool
  objsIntersect : MObj → Vec3 → Quat4 → MObj → Vec3 → Quat4 → Bool
  objInRegionKeypoints : MObj → Vec3 → Quat4 → (Vec3 × Vec3 × Vec3) → ℕ → Bool
  bbox3 : MObj → Vec3 → Quat4 → Vec3 × Vec3 × Vec3

/-- The `rotation` configuration of `UniformRandomSampler`: `None` (full
uniform angle), a scalar (fixed angle), a flat iterable (uniform between its
min and max), or an iterable of intervals (one chosen uniformly first). -/
inductive Rotation where
  | uniformFull
  | fixed (a : ℚ)
  | interval (a b : ℚ)
  | intervals (rs : List (ℚ × ℚ))
deriving DecidableEq, Repr

/-- Embeds the angle-drawing part of `UniformRandomSampler._sample_quat`
(lines 264-273 of the source).  The only failure is numpy choice over an
empty iterable of intervals. -/
def sampleRotAngle (P : Prims) (rot : Rotation) (rng : Rng) :
    Except SampleErr ℚ × Rng :=
  match rot with
  | .uniformFull =>
      let p := rng.uniform 0 P.twoPi
      (.ok p.1, p.2)
  | .fixed a => (.ok a, rng)
  | .interval a b =>
      let p := rng.uniform (min a b) (max a b)
      (.ok p.1, p.2)
  | .intervals rs =>
      let c := rng.choose rs
      match c.1 with
      | some ab =>
          let p := c.2.uniform (min ab.1 ab.2) (max ab.1 ab.2)
          (.ok p.1, p.2)
      | none => (.error (.valueError ("choice over empty sequence")), c.2)

/-- Unit quaternion about a named axis in wxyz order, as built by
`_sample_quat` (lines 276-288): `none` for an axis other than x, y, z. -/
def axisQuat (P : Prims) (axis : String) (a : ℚ) : Option Quat4 :=
  if axis = "x" then some (P.cos (a / 2), P.sin (a / 2), 0, 0)
  else if axis = "y" then some (P.cos (a / 2), 0, P.sin (a / 2), 0)
  else if axis = "z" then some (P.cos (a / 2), 0, 0, P.sin (a / 2))
  else none

/-- Configuration and registered objects of a `UniformRandomSampler` (the
spec's UniformRegionSampler). -/
structure UCfg where
  name : String
  objects : List MObj
  xRange : ℚ × ℚ
  yRange : ℚ × ℚ
  rotation : Rotation
  rotationAxis : String
  ensureBoundary : Bool
  ensureValid : Bool
  ensureInRefRegion : Bool
  ensureOutOfRefRegion : Bool
  referencePos : Vec3
  referenceRot : ℚ
  zOffset : ℚ
  numAttempts : ℕ
deriving Repr

/-- Embeds `UniformRandomSampler._sample_quat` in full: draw the angle, then
dispatch on the rotation axis; an invalid axis raises ValueError (after the
angle draw has already consumed the generator, as in the source). -/
def sampleQuatU (P : Prims) (u : UCfg) (rng : Rng) :
    Except SampleErr Quat4 × Rng :=
  let p := sampleRotAngle P u.rotation rng
  match p.1 with
  | .error e => (.error e, p.2)
  | .ok a =>
      match axisQuat P u.rotationAxis a with
      | some q => (.ok q, p.2)
      | none =>
          (.error (.valueError ("Invalid rotation axis specified. Must be x, y, or z. Got: " ++ u.rotationAxis)), p.2)

/-- The `reference` argument of `UniformRandomSampler.sample`: an object
name, a (name, spawn id) pair, or a direct coordinate (wrapped in `Option`
at the call site for the absent case). -/
inductive Ref where
  | byName (s : String)
  | bySpawn (s : String) (spawnId : ℤ)
  | byCoord (v : Vec3)
deriving DecidableEq, Repr

/-- The value of the local variable `reference` after resolution: `absent`
for None, `named s` after a name or spawn reference (the spawn tuple is
unpacked, rebinding `reference` to the name), `raw` for a coordinate
reference (whose use as a dict key in the keypoint check fails). -/
inductive RefVar where
  | absent
  | named (s : String)
  | raw
deriving DecidableEq, Repr

/-- Result of reference resolution: the world-frame base offset, the spawn
owner object when the reference was a spawn site (`spawn_ref_obj`), and the
rebound `reference` variable. -/
structure ResCtx where
  base : Vec3
  spawnRef : Option MObj
  refVar : RefVar
deriving DecidableEq, Repr

/-- Componentwise addition of 3-vectors (numpy array addition). -/
def vadd (a b : Vec3) : Vec3 := (a.1 + b.1, a.2.1 + b.2.1, a.2.2 + b.2.2)

/-- Python list indexing semantics: negative indices count from the end;
out of range is `none` (IndexError). -/
def pyIndex {α : Type} (l : List α) (i : ℤ) : Option (ℕ × α) :=
  let j : ℤ := if i < 0 then (l.length : ℤ) + i else i
  if h : 0 ≤ j ∧ j.toNat < l.length then some (j.toNat, l.get ⟨j.toNat, h.2⟩)
  else none

/-- Indices of currently selectable spawn sites of `o`: active in the store
and not explicitly disabled.  Modelled from the spec: the object interface
offers an operation to pick a random active spawn, excluding explicitly
disabled ones (`get_random_spawn(exclude_disabled=True)`). -/
def activeSpawnIdx (st : Store) (o : MObj) : List ℕ :=
  (List.range o.spawnSites.length).filter
    (fun i => spawnActive st o i && !((o.spawnSites.getD i ⟨(0, 0, 0), false⟩).disabled))

/-- Embeds lines 321-364 of `UniformRandomSampler.sample`: resolve the
`reference` argument to a base offset.  The spawn branch deactivates the
chosen spawn site in the store at resolution time, before any placement
attempt; `get_random_spawn` and `get_spawn_bottom_offset` are modelled from
the spec (pick uniformly among selectable spawns; a spawn's effective
bottom offset is its stored local offset). -/
def resolveRef (u : UCfg) (tbl : Table) (ref : Option Ref) (onTop : Bool)
    (store : Store) (rng : Rng) : Except SampleErr ResCtx × Store × Rng :=
  match ref with
  | none => (.ok ⟨u.referencePos, none, .absent⟩, store, rng)
  | some (.byName s) =>
      match lookupTbl tbl s with
      | none => (.error (.assertionError ("Invalid reference received: " ++ s)), store, rng)
      | some pl =>
          let rp := pl.1
          let ro := pl.2.2
          let base := if onTop then (rp.1, rp.2.1, rp.2.2 + ro.top) else rp
          (.ok ⟨base, none, .named s⟩, store, rng)
  | some (.bySpawn s sid) =>
      match lookupTbl tbl s with
      | none => (.error (.assertionError ("Invalid reference received: " ++ s)), store, rng)
      | some pl =>
          let rp := pl.1
          let ro := pl.2.2
          if ro.isMJCF = false then
            (.error (.assertionError ("Invalid reference received. Should be of type MJCFObject")), store, rng)
          else if sid = -1 then
            let c := rng.choose (activeSpawnIdx store ro)
            match c.1 with
            | none => (.error (.valueError ("no selectable spawn sites")), store, c.2)
            | some j =>
                let site := ro.spawnSites.getD j ⟨(0, 0, 0), false⟩
                (.ok ⟨vadd rp site.bottomOffset, some ro, .named s⟩,
                 setSpawnInactive store ro j, c.2)
          else
            match pyIndex ro.spawnSites sid with
            | none => (.error (.keyError ("list index out of range")), store, rng)
            | some js =>
                (.ok ⟨vadd rp js.2.bottomOffset, some ro, .named s⟩,
                 setSpawnInactive store ro js.1, rng)
  | some (.byCoord v) => (.ok ⟨v, none, .raw⟩, store, rng)

/-- Embeds lines 381-392: the three region corner points (origin, +x, +y)
rotated by the reference rotation and translated by the base offset. -/
def regionPoints (P : Prims) (u : UCfg) (base : Vec3) : Vec3 × Vec3 × Vec3 :=
  let q0 := P.rotate2d (u.xRange.1, u.yRange.1) u.referenceRot
  let qx := P.rotate2d (u.xRange.2, u.yRange.1) u.referenceRot
  let qy := P.rotate2d (u.xRange.1, u.yRange.2) u.referenceRot
  ((q0.1 + base.1, q0.2 + base.2.1, base.2.2),
   (qx.1 + base.1, qx.2 + base.2.1, base.2.2),
   (qy.1 + base.1, qy.2 + base.2.1, base.2.2))

/-- Embeds the overlap scan of lines 438-461: any intersection with an
already placed entry rejects, except that against the spawn owner the test
is inverted (the candidate must intersect the shelf it sits on).
`quatX` is the candidate quaternion already converted to xyzw. -/
def overlapViolation (P : Prims) (spawnRef : Option MObj) (obj : MObj)
    (pos : Vec3) (quatX : Quat4) (placed : Table) : Bool :=
  placed.any (fun e =>
    let op := e.2.1
    let oq := e.2.2.1
    let oo := e.2.2.2
    if spawnRef = some oo then
      !(P.objsIntersect obj pos quatX oo op (toXYZW oq))
    else
      P.objsIntersect obj pos quatX oo op (toXYZW oq))

/-- Embeds the exclusion-region scan of lines 478-501: returns `true` when
the candidate lies inside some named excluded region's bounding box, or an
assertion error when a name is absent from the table. -/
def negCheck (P : Prims) (obj : MObj) (pos : Vec3) (quatX : Quat4)
    (placed : Table) : List String → Except SampleErr Bool
  | [] => .ok false
  | nf :: rest =>
      match lookupTbl placed nf with
      | none => .error (.assertionError ("Invalid negative reference received: " ++ nf))
      | some pl =>
          let b := P.bbox3 pl.2.2 pl.1 pl.2.1
          if P.objInRegion obj pos quatX b.1 b.2.1 b.2.2 then .ok true
          else negCheck P obj pos quatX placed rest

/-- Outcome of the check block of one attempt: all checks passed, retry the
next attempt (`continue` or `location_valid` false), abort the whole
attempt loop (the keypoint-check `break`), or a raised exception. -/
inductive Verdict where
  | pass
  | rejectV
  | abortV
  | failV (e : SampleErr)
deriving DecidableEq, Repr

/-- Embeds the check block of lines 423-508 with its exact control flow:
a failed boundary check `continue`s; a failed overlap scan only clears
`location_valid` and falls through; a failed keypoint test `break`s out of
the attempt loop; the exclusion scan clears `location_valid`; finally the
candidate commits only when `location_valid` is still set. -/
def runChecks (P : Prims) (u : UCfg) (rc : ResCtx) (negRef : Option (List String))
    (pts : Vec3 × Vec3 × Vec3) (obj : MObj) (pos : Vec3) (q : Quat4)
    (placed : Table) : Verdict :=
  if u.ensureBoundary && !(P.objInRegion obj pos (toXYZW q) pts.1 pts.2.1 pts.2.2) then
    .rejectV
  else
    let lv := !(u.ensureValid && overlapViolation P rc.spawnRef obj pos (toXYZW q) placed)
    let negPhase := fun (lv : Bool) =>
      if u.ensureOutOfRefRegion ∧ negRef ≠ none then
        match negCheck P obj pos (toXYZW q) placed (negRef.getD []) with
        | .error e => .failV e
        | .ok viol => if lv && !viol then Verdict.pass else .rejectV
      else if lv then Verdict.pass else .rejectV
    if u.ensureInRefRegion ∧ rc.refVar ≠ RefVar.absent then
      match rc.refVar with
      | .named s =>
          match lookupTbl placed s with
          | some pl =>
              if !(P.objInRegionKeypoints obj pos (toXYZW q) (P.bbox3 pl.2.2 pl.1 pl.2.1) 3) then
                .abortV
              else negPhase lv
          | none => .failV (.keyError s)
      | .raw => .failV (.typeError ("unhashable reference key"))
      | .absent => negPhase lv
    else negPhase lv

/-- Outcome of one iteration of the attempt loop. -/
inductive AttemptRes where
  | commit (pos : Vec3) (q : Quat4) (rng : Rng)
  | reject (rng : Rng)
  | abortA (rng : Rng)
  | failA (e : SampleErr) (rng : Rng)
deriving DecidableEq, Repr

/-- Embeds one iteration of the attempt loop (lines 394-508): draw x and y,
rotate by the reference rotation and add the base offset, compute z from the
z-offset and (when on top) the object's bottom extent, draw the orientation,
compose with the intrinsic `init_quat` when declared and then with the
reference rotation, and run the checks.  The reference quaternion is
recomputed here; the source computes the identical value once per object. -/
def attemptOnce (P : Prims) (u : UCfg) (rc : ResCtx) (negRef : Option (List String))
    (pts : Vec3 × Vec3 × Vec3) (onTop : Bool) (obj : MObj) (placed : Table)
    (rng : Rng) : AttemptRes :=
  let px := rng.uniform u.xRange.1 u.xRange.2
  let py := px.2.uniform u.yRange.1 u.yRange.2
  let rxy := P.rotate2d (px.1, py.1) u.referenceRot
  let pos : Vec3 :=
    (rxy.1 + rc.base.1, rxy.2 + rc.base.2.1,
     u.zOffset + rc.base.2.2 - (if onTop then obj.bottom else 0))
  let pq := sampleQuatU P u py.2
  match pq.1 with
  | .error e => .failA e pq.2
  | .ok q0 =>
      let q1 := match obj.initQuat with
        | some iq => P.qmul q0 iq
        | none => q0
      let q := toWXYZ (P.qmul (toXYZW (P.refRotQuat u.referenceRot)) (toXYZW q1))
      match runChecks P u rc negRef pts obj pos q placed with
      | .pass => .commit pos q pq.2
      | .rejectV => .reject pq.2
      | .abortV => .abortA pq.2
      | .failV e => .failA e pq.2

/-- Outcome of the whole attempt loop for one object. -/
inductive LoopRes where
  | placedL (pos : Vec3) (q : Quat4) (rng : Rng)
  | exhausted (rng : Rng)
  | failedL (e : SampleErr) (rng : Rng)
deriving DecidableEq, Repr

/-- Embeds `for i in range(self.num_attempts)` with the control flow of
`attemptOnce`: a commit ends the loop in success, a rejection draws a fresh
candidate, the keypoint `break` ends the loop without success. -/
def attemptLoop (P : Prims) (u : UCfg) (rc : ResCtx) (negRef : Option (List String))
    (pts : Vec3 × Vec3 × Vec3) (onTop : Bool) (obj : MObj) (placed : Table) :
    ℕ → Rng → LoopRes
  | 0, rng => .exhausted rng
  | Nat.succ n, rng =>
      match attemptOnce P u rc negRef pts onTop obj placed rng with
      | .commit p q r => .placedL p q r
      | .reject r => attemptLoop P u rc negRef pts onTop obj placed n r
      | .abortA r => .exhausted r
      | .failA e r => .failedL e r

/-- Embeds the per-object loop of lines 367-511: assert the object is not
already in the table, run the attempt loop, commit the winning pose at the
end of the table, and raise RandomizationError naming the object when the
loop ends without success (no later object is attempted). -/
def placeObjs (P : Prims) (u : UCfg) (rc : ResCtx) (negRef : Option (List String))
    (onTop : Bool) : List MObj → Table → Rng → Except SampleErr Table × Rng
  | [], placed, rng => (.ok placed, rng)
  | obj :: rest, placed, rng =>
      if (lookupTbl placed obj.name).isSome then
        (.error (.assertionError ("Object has already been sampled: " ++ obj.name)), rng)
      else
        match attemptLoop P u rc negRef (regionPoints P u rc.base) onTop obj placed
            u.numAttempts rng with
        | .placedL p q r =>
            placeObjs P u rc negRef onTop rest (placed ++ [(obj.name, (p, q, obj))]) r
        | .exhausted r => (.error (.randomization obj.name), r)
        | .failedL e r => (.error e, r)

/-- Result of a sampler call: the table outcome plus the threaded spawn
store and generator (both advance even when the call raises). -/
structure UOut where
  res : Except SampleErr Table
  store : Store
  rng : Rng
deriving Repr

/-- Embeds `UniformRandomSampler.sample` (lines 290-513): resolve the
reference (mutating spawn flags), then place every registered object; on
success the returned table is the input table extended with the new
placements. -/
def sampleUniform (P : Prims) (u : UCfg) (tbl : Table) (ref : Option Ref)
    (negRef : Option (List String)) (onTop : Bool) (store : Store) (rng : Rng) : UOut :=
  let r := resolveRef u tbl ref onTop store rng
  match r.1 with
  | .error e => ⟨.error e, r.2.1, r.2.2⟩
  | .ok rc =>
      let pr := placeObjs P u rc negRef onTop u.objects tbl r.2.2
      ⟨pr.1, r.2.1, pr.2⟩

/-- Boolean membership of a string in a list (used where the source tests
Python `in` over names). -/
def memS (l : List String) (k : String) : Bool :=
  match l with
  | [] => false
  | a :: rest => if a = k then true else memS rest k

/-- The `sample_args` dict registered with a sub-sampler by
`append_sampler`.  A field holds `some v` when the corresponding key is
present in the dict.  Only the keys consumed by the samplers are modelled. -/
structure SArgs where
  reference : Option (Option Ref)
  onTop : Option Bool
  negReference : Option (List String)
  placedObjects : Option Table
deriving Repr

/- The sampler composition tree: a `UniformRandomSampler` leaf or a
`SequentialCompositeSampler` with its ordered children, each carrying the
registered key (sub-sampler name), its registered `sample_args` dict, and
its `optional` flag.  `ChildList` is the insertion-ordered `samplers` /
`sample_args` / `sampler_optional` dictionaries of the source, with keys
assumed distinct (a duplicate key would silently replace in Python). -/
mutual
inductive PSampler where
  | uniform (u : UCfg)
  | composite (cname : String) (children : ChildList)
inductive ChildList where
  | nil
  | cons (key : String) (sub : PSampler) (args : Option SArgs) (optional : Bool)
      (rest : ChildList)
end

/- Names of all objects transitively owned by a sampler
(`sampler.mujoco_objects` of composite sub-samplers accumulates all
descendant objects).  Used by the delta filter at lines 676-681. -/
mutual
def objNamesNode : PSampler → List String
  | .uniform u => u.objects.map (fun o => o.name)
  | .composite _ cs => objNamesChildren cs
def objNamesChildren : ChildList → List String
  | .nil => []
  | .cons _ sub _ _ rest => objNamesNode sub ++ objNamesChildren rest
end

/- Names of the objects whose whole registration chain is mandatory: all
objects of a uniform leaf, and for a composite only the mandatory-chain
objects of its non-optional children. -/
mutual
def mandNamesNode : PSampler → List String
  | .uniform u => u.objects.map (fun o => o.name)
  | .composite _ cs => mandNamesChildren cs
def mandNamesChildren : ChildList → List String
  | .nil => []
  | .cons _ sub _ opt rest =>
      (if opt then [] else mandNamesNode sub) ++ mandNamesChildren rest
end

/-- The effective call built for one child by lines 655-666: the registered
dict (or a fresh empty one when `None` was registered), with the composite
call's `reference` / `on_top` written into any absent key (mutating the
registered dict in place), the `placed_objects` key popped only when the
accumulating table is falsy (empty), and a duplicate `placed_objects`
keyword flagged when the key survives alongside a non-empty table. -/
structure EffCall where
  effRef : Option Ref
  effTop : Bool
  effNeg : Option (List String)
  callTbl : Table
  dupPlaced : Bool
  args2 : Option SArgs
deriving Repr

/-- Computes the `EffCall` for one child; `args2` is the registered dict
after the call (the in-place mutations persist only when a dict was
registered, not when `None` was).  The `negReference` and `placedObjects`
keys are read off the registered dict directly: the reference and on-top
injections never touch those keys, so this equals reading the mutated
dict. -/
def effChild (args : Option SArgs) (tbl : Table) (ref : Option Ref) (onTop : Bool) :
    EffCall :=
  let s0 := args.getD ⟨none, none, none, none⟩
  let s1 := if s0.reference = none then { s0 with reference := some ref } else s0
  let s2 := if s1.onTop = none then { s1 with onTop := some onTop } else s1
  let s3 := if tbl.isEmpty then { s2 with placedObjects := none } else s2
  { effRef := s1.reference.getD ref
    effTop := s2.onTop.getD onTop
    effNeg := s0.negReference
    callTbl := if tbl.isEmpty then s0.placedObjects.getD [] else tbl
    dupPlaced := !tbl.isEmpty && s0.placedObjects.isSome
    args2 := match args with | none => none | some _ => some s3 }

/-- Output of one sampler node call: the table outcome, the threaded spawn
store and generator, the sampler with its registered dicts as mutated by
the call, and the per-child trace of effective (reference, on_top) values
actually passed (recorded for the composite's own children; empty for a
leaf). -/
structure NodeOut where
  res : Except SampleErr Table
  store : Store
  rng : Rng
  updated : PSampler
  trace : List (String × Option Ref × Bool)

/-- Output of a run over a child list. -/
structure ChOut where
  res : Except SampleErr Table
  store : Store
  rng : Rng
  updated : ChildList
  trace : List (String × Option Ref × Bool)

/- Embeds dispatching a call to a sampler with the keyword arguments built
by the composite (or by the top-level caller): a surviving duplicate
`placed_objects` keyword or (for a composite callee, whose `sample` has no
such parameter) a `neg_reference` keyword raises TypeError at the call;
otherwise a uniform leaf runs `UniformRandomSampler.sample` and a composite
runs `SequentialCompositeSampler.sample` (lines 623-681): iterate children
in registration order, update the accumulating table on success, swallow
RandomizationError of an optional child, propagate any other failure, and
finally filter the table to the objects owned by the sub-samplers. -/
mutual
def sampleNode (P : Prims) (s : PSampler) (tbl : Table) (effRef : Option Ref)
    (effNeg : Option (List String)) (effTop : Bool) (dup : Bool)
    (store : Store) (rng : Rng) : NodeOut :=
  match s with
  | .uniform u =>
      if dup then
        ⟨.error (.typeError ("sample got multiple values for argument placed_objects")),
         store, rng, .uniform u, []⟩
      else
        let o := sampleUniform P u tbl effRef effNeg effTop store rng
        ⟨o.res, o.store, o.rng, .uniform u, []⟩
  | .composite cnm cs =>
      if dup then
        ⟨.error (.typeError ("sample got multiple values for argument placed_objects")),
         store, rng, .composite cnm cs, []⟩
      else if effNeg.isSome then
        ⟨.error (.typeError ("sample got an unexpected keyword argument neg_reference")),
         store, rng, .composite cnm cs, []⟩
      else
        let r := sampleChildren P cs tbl effRef effTop store rng
        match r.res with
        | .error e => ⟨.error e, r.store, r.rng, .composite cnm r.updated, r.trace⟩
        | .ok full =>
            ⟨.ok (full.filter (fun e => memS (objNamesChildren r.updated) e.1)),
             r.store, r.rng, .composite cnm r.updated, r.trace⟩
def sampleChildren (P : Prims) (cs : ChildList) (tbl : Table) (ref : Option Ref)
    (onTop : Bool) (store : Store) (rng : Rng) : ChOut :=
  match cs with
  | .nil => ⟨.ok tbl, store, rng, .nil, []⟩
  | .cons key sub args opt rest =>
      let ec := effChild args tbl ref onTop
      let no := sampleNode P sub ec.callTbl ec.effRef ec.effNeg ec.effTop
        ec.dupPlaced store rng
      match no.res with
      | .ok newPl =>
          let r := sampleChildren P rest (updateTbl tbl newPl) ref onTop no.store no.rng
          ⟨r.res, r.store, r.rng, .cons key no.updated ec.args2 opt r.updated,
           (key, ec.effRef, ec.effTop) :: r.trace⟩
      | .error (.randomization m) =>
          if opt then
            let r := sampleChildren P rest tbl ref onTop no.store no.rng
            ⟨r.res, r.store, r.rng, .cons key no.updated ec.args2 opt r.updated,
             (key, ec.effRef, ec.effTop) :: r.trace⟩
          else
            ⟨.error (.randomization m), no.store, no.rng,
             .cons key no.updated ec.args2 opt rest, [(key, ec.effRef, ec.effTop)]⟩
      | .error e =>
          ⟨.error e, no.store, no.rng, .cons key no.updated ec.args2 opt rest,
           [(key, ec.effRef, ec.effTop)]⟩
end

/-- Top-level call to a sampler, as a user makes it: no duplicate keyword
and no `neg_reference` keyword. -/
def sampleTop (P : Prims) (s : PSampler) (tbl : Table) (ref : Option Ref)
    (onTop : Bool) (store : Store) (rng : Rng) : NodeOut :=
  sampleNode P s tbl ref none onTop false store rng

/-- One named quadrant region of a `MultiRegionSampler`. -/
structure RegionSite where
  pos : Vec3
  xRange : ℚ × ℚ
  yRange : ℚ × ℚ
deriving DecidableEq, Repr

/-- The `sides_combinations` property (lines 122-129). -/
def sidesCombinations (side : String) : Option (List String) :=
  if side = "left" then some ["front_left", "back_left"]
  else if side = "right" then some ["front_right", "back_right"]
  else if side = "front" then some ["front_left", "front_right"]
  else if side = "back" then some ["back_left", "back_right"]
  else if side = "all" then some ["front_left", "front_right", "back_left", "back_right"]
  else none

/-- Sides selected for a given side argument (lines 709-712): the
combination when the side names one, else the side itself. -/
def mkSides (side : String) : List String :=
  match sidesCombinations side with
  | some l => l
  | none => [side]

/-- The `valid_sides` property (lines 131-145). -/
def validSides : List String :=
  ["left", "right", "front", "back", "all",
   "front_left", "front_right", "back_left", "back_right"]

/-- State of a constructed `MultiRegionSampler`.  Its `__init__` (lines
685-733) never calls `super().__init__`, so the instance attribute `rng`
(as well as `name` and `mujoco_objects`) is never assigned; `rngAttr`
models the presence of that attribute and is `none` for every instance the
constructor can produce. -/
structure MRSampler where
  sides : List String
  regions : List (String × RegionSite)
  samplers : List UCfg
  rngAttr : Option Rng

/-- Keyword parameter names of `UniformRandomSampler.sample` (line 290). -/
def uniformSampleParamNames : List String :=
  ["placed_objects", "reference", "neg_reference", "on_top"]

/-- Keyword names used by `MultiRegionSampler.sample` when delegating to
the chosen child (line 738). -/
def multiRegionCallKw : List String := ["fixtures", "reference", "on_top"]

/-- Builds the per-side child `UniformRandomSampler` configurations (lines
716-733); a side absent from `regions` is a KeyError. -/
def buildQuadrants (name : String) (regions : List (String × RegionSite))
    (objects : List MObj) (rotation : Rotation) (rotationAxis : String)
    (ensureBoundary ensureValid ensureInRef : Bool) (zOffset : ℚ) :
    List String → Except SampleErr (List UCfg)
  | [] => .ok []
  | s :: rest =>
      match regions.find? (fun e => e.1 = s) with
      | none => .error (.keyError s)
      | some e =>
          match buildQuadrants name regions objects rotation rotationAxis
              ensureBoundary ensureValid ensureInRef zOffset rest with
          | .error er => .error er
          | .ok tail =>
              .ok ({ name := name, objects := objects, xRange := e.2.xRange,
                     yRange := e.2.yRange, rotation := rotation,
                     rotationAxis := rotationAxis,
                     ensureBoundary := ensureBoundary, ensureValid := ensureValid,
                     ensureInRefRegion := ensureInRef,
                     ensureOutOfRefRegion := false,
                     referencePos := e.2.pos, referenceRot := 0,
                     zOffset := zOffset, numAttempts := 5000 } :: tail)

/-- Embeds `MultiRegionSampler.__init__`: exactly four regions and a valid
side are required; the selected sides each get a child
`UniformRandomSampler`; the base initializer is never invoked, so the
`rng` attribute is left unset. -/
def multiRegionInit (name : String) (regions : List (String × RegionSite))
    (side : String) (objects : List MObj) (rotation : Rotation)
    (rotationAxis : String) (ensureBoundary ensureValid ensureInRef : Bool)
    (zOffset : ℚ) : Except SampleErr MRSampler :=
  if regions.length ≠ 4 then
    .error (.valueError ("Exactly four sites (one for each quadrant) must be provided."))
  else if !(memS validSides side) then
    .error (.valueError ("Invalid value for side"))
  else
    match buildQuadrants name regions objects rotation rotationAxis
        ensureBoundary ensureValid ensureInRef zOffset (mkSides side) with
    | .error e => .error e
    | .ok children => .ok ⟨mkSides side, regions, children, none⟩

/-- Output of `MultiRegionSampler.sample`: result, threaded store, and the
instance rng attribute after the call. -/
structure MROut where
  res : Except SampleErr Table
  store : Store
  rngAttr : Option Rng

/-- Embeds `MultiRegionSampler.sample` (lines 735-738): read `self.rng`
(AttributeError when the attribute was never assigned), draw one child
uniformly, and delegate with the keyword arguments of line 738; the
delegation raises TypeError when a keyword is not among the child's
parameter names (`fixtures` is not). -/
def multiRegionSample (P : Prims) (m : MRSampler) (tbl : Table) (ref : Option Ref)
    (onTop : Bool) (store : Store) : MROut :=
  match m.rngAttr with
  | none =>
      ⟨.error (.attributeError ("MultiRegionSampler object has no attribute rng")),
       store, none⟩
  | some rng =>
      let c := rng.choose m.samplers
      match c.1 with
      | none => ⟨.error (.valueError ("choice over empty sequence")), store, some c.2⟩
      | some child =>
          if multiRegionCallKw.all (fun k => memS uniformSampleParamNames k) then
            let o := sampleUniform P child tbl ref none onTop store c.2
            ⟨o.res, o.store, some o.rng⟩
          else
            ⟨.error (.typeError ("sample got an unexpected keyword argument fixtures")),
             store, some c.2⟩

/-! Concrete instances used to instantiate the theorems below: a trivial
geometry oracle (everything in region, nothing intersecting), variants, and
small objects and configurations. -/

/-- Oracle with every containment test passing and no intersections. -/
def trivPrims : Prims :=
  ⟨7, fun _ => 1, fun _ => 0, fun p _ => p, fun a _ => a, fun _ => (1, 0, 0, 0),
   fun _ _ _ _ _ _ => true, fun _ _ _ _ _ _ => false, fun _ _ _ _ _ => true,
   fun _ _ _ => ((0, 0, 0), (0, 0, 0), (0, 0, 0))⟩

/-- Oracle whose keypoint test rejects exactly the poses with x = 0. -/
def kpPrims : Prims :=
  ⟨7, fun _ => 1, fun _ => 0, fun p _ => p, fun a _ => a, fun _ => (1, 0, 0, 0),
   fun _ _ _ _ _ _ => true, fun _ _ _ _ _ _ => false,
   fun _ pos _ _ _ => if pos.1 = 0 then false else true,
   fun _ _ _ => ((0, 0, 0), (0, 0, 0), (0, 0, 0))⟩

/-- Oracle with every pair of objects intersecting. -/
def ixPrims : Prims :=
  ⟨7, fun _ => 1, fun _ => 0, fun p _ => p, fun a _ => a, fun _ => (1, 0, 0, 0),
   fun _ _ _ _ _ _ => true, fun _ _ _ _ _ _ => true, fun _ _ _ _ _ => true,
   fun _ _ _ => ((0, 0, 0), (0, 0, 0), (0, 0, 0))⟩

/-- Plain object with no extents, no intrinsic rotation, no spawn sites. -/
def objM : MObj := ⟨"m", 0, 0, none, false, []⟩

/-- Like `objM`, named o. -/
def objO : MObj := ⟨"o", 0, 0, none, false, []⟩

/-- Like `objM`, named c. -/
def objC : MObj := ⟨"c", 0, 0, none, false, []⟩

/-- Like `objM`, named d. -/
def objD : MObj := ⟨"d", 0, 0, none, false, []⟩

/-- An MJCF reference object with two spawn sites and nonzero extents. -/
def objA : MObj :=
  ⟨"A", -1/10, 1/5, none, true, [⟨(0, 0, 1/2), false⟩, ⟨(0, 0, 1), false⟩]⟩

/-- A small object with nonzero extents. -/
def objB : MObj := ⟨"B", -1/20, 1/10, none, false, []⟩

/-- Baseline configuration: degenerate ranges, fixed zero rotation about z,
every check off, the given retry budget. -/
def mkU (nm : String) (os : List MObj) (att : ℕ) : UCfg :=
  ⟨nm, os, (0, 0), (0, 0), .fixed 0, "z", false, false, false, false,
   (0, 0, 0), 0, 0, att⟩

/-- Sampler that places `objM` on the first attempt. -/
def uM : UCfg := mkU "M" [objM] 1

/-- Sampler that always exhausts: zero-attempt budget for `objO`. -/
def uO : UCfg := mkU "O" [objO] 0

/-- Sampler that always exhausts: zero-attempt budget for `objC`. -/
def uC : UCfg := mkU "C" [objC] 0

/-- A mandatory composite with a placeable mandatory child M and an
always-failing optional child O. -/
def innerC : PSampler :=
  .composite "C" (.cons "M" (.uniform uM) none false
    (.cons "O" (.uniform uO) none true .nil))

/-- Top-level composite whose single mandatory child is `innerC`. -/
def topC : PSampler := .composite "T" (.cons "C" innerC none false .nil)

/-- Table with the reference object A already placed at the origin. -/
def tblA : Table := [("A", ((0, 0, 0), (1, 0, 0, 0), objA))]

/-- Sampler for object B with the keypoint-containment check enabled,
x and y ranges (0, 1), and a budget of five attempts. -/
def u2 : UCfg :=
  ⟨"S", [objB], (0, 1), (0, 1), .fixed 0, "z", false, false, true, false,
   (0, 0, 0), 0, 0, 5⟩

/-- Sampler with no objects at all (its sample trivially succeeds). -/
def u3 : UCfg := mkU "S3" [] 1

/-- Composite with one mandatory child registered with an empty
`sample_args` dict (the dict that the composite call mutates in place). -/
def comp3 : PSampler :=
  .composite "T3" (.cons "s" (.uniform u3) (some ⟨none, none, none, none⟩) false .nil)

/-- Sampler for object D with overlap rejection enabled, single attempt. -/
def uD : UCfg :=
  ⟨"SP", [objD], (0, 0), (0, 0), .fixed 0, "z", false, true, false, false,
   (0, 0, 0), 0, 0, 1⟩

/-- Sampler for object B with every check off, used with an on-top named
reference. -/
def u7 : UCfg := mkU "S7" [objB] 1

/-- Sampler with an invalid rotation axis w. -/
def u8 : UCfg :=
  ⟨"S8", [objB], (0, 0), (0, 0), .fixed 0, "w", false, false, false, false,
   (0, 0, 0), 0, 0, 1⟩

/-- Four named quadrant regions. -/
def quadRegions : List (String × RegionSite) :=
  [("front_left", ⟨(1, 1, 0), (0, 1), (0, 1)⟩),
   ("front_right", ⟨(1, -1, 0), (0, 1), (0, 1)⟩),
   ("back_left", ⟨(-1, 1, 0), (0, 1), (0, 1)⟩),
   ("back_right", ⟨(-1, -1, 0), (0, 1), (0, 1)⟩)]

/-- The `MultiRegionSampler` built from `quadRegions` with side all. -/
def mrQuad : MRSampler :=
  (multiRegionInit "mr" quadRegions "all" [objM] (.fixed 0) "z" true true false 0).toOption.getD
    ⟨[], [], [], none⟩

/-- Children list append (concatenating two registration sequences). -/
def appendCL : ChildList → ChildList → ChildList
  | .nil, ys => ys
  | .cons k s a o r, ys => .cons k s a o (appendCL r ys)

/- Ordinary configurations: no registered `sample_args` dict anywhere in
the tree carries a `placed_objects` key (that key makes the composite feed
a child a table other than the accumulating one). -/
mutual
def cleanNode : PSampler → Bool
  | .uniform _ => true
  | .composite _ cs => cleanChildren cs
def cleanChildren : ChildList → Bool
  | .nil => true
  | .cons _ sub args _ rest =>
      (match args with
        | some a => a.placedObjects.isNone
        | none => true)
      && cleanNode sub && cleanChildren rest
end

/-- Mandatory prefix for the C4 instance: one mandatory child placing m. -/
def pre4 : ChildList := .cons "main" (.uniform uM) none false .nil

/-- Composite with the mandatory main child followed by an optional child
owning c that always exhausts. -/
def comp4 : PSampler :=
  .composite "T4" (appendCL pre4 (.cons "clutter" (.uniform uC) none true .nil))

/-- Table with only m placed (output of the mandatory prefix). -/
def tblM : Table := [("m", ((0, 0, 0), (1, 0, 0, 0), objM))]

/-! Supporting lemmas. -/

/-- Setting index `j` to false yields false at index `j` (also out of
range, where the default applies). -/
theorem getD_set_false : ∀ (l : List Bool) (j : ℕ), (l.set j false).getD j false = false
  | [], j => by cases j <;> rfl
  | _ :: _, 0 => rfl
  | _ :: l, j + 1 => by simpa using getD_set_false l j

/-- The flags of `o` after deactivating its spawn `j`. -/
theorem getFlags_setSpawnInactive (st : Store) (o : MObj) (j : ℕ) :
    getFlags (setSpawnInactive st o j) o = (getFlags st o).set j false := by
  unfold getFlags setSpawnInactive
  rw [List.find?_cons_of_pos]
  · rfl
  · exact decide_eq_true rfl

/-- A table entry found by lookup is a member. -/
theorem lookupTbl_mem : ∀ (t : Table) (k : String) (v : Placement),
    lookupTbl t k = some v → (k, v) ∈ t
  | [], _, _, h => by exact Option.noConfusion h
  | (k2, v2) :: rest, k, v, h => by
      unfold lookupTbl at h
      by_cases hk : k2 = k
      · rw [if_pos hk] at h
        cases h
        exact hk ▸ List.mem_cons_self _ _
      · rw [if_neg hk] at h
        exact List.mem_cons_of_mem _ (lookupTbl_mem rest k v h)

/-- A member key makes lookup succeed. -/
theorem lookupTbl_isSome_of_mem : ∀ (t : Table) (e : String × Placement),
    e ∈ t → (lookupTbl t e.1).isSome
  | [], e, h => by exact absurd h (List.not_mem_nil e)
  | (k2, v2) :: rest, e, h => by
      unfold lookupTbl
      by_cases hk : k2 = e.1
      · rw [if_pos hk]; rfl
      · rw [if_neg hk]
        rcases List.mem_cons.1 h with he | he
        · exact absurd (congrArg Prod.fst he).symm hk
        · exact lookupTbl_isSome_of_mem rest e he

/-- The key of a member entry is among the table keys. -/
theorem mem_keysOf_of_mem {t : Table} {e : String × Placement} (h : e ∈ t) :
    e.1 ∈ keysOf t := List.mem_map_of_mem _ h

/-- A successful quaternion draw is an axis quaternion for some angle. -/
theorem sampleQuatU_fst_ok {P : Prims} {u : UCfg} {rng : Rng} {q0 : Quat4}
    (h : (sampleQuatU P u rng).1 = .ok q0) :
    ∃ a, axisQuat P u.rotationAxis a = some q0 := by
  unfold sampleQuatU at h
  dsimp only at h
  split at h
  · exact absurd h (by simp)
  · split at h
    · dsimp only at h
      cases h
      exact ⟨_, by assumption⟩
    · exact absurd h (by simp)

/-- Inversion of a committed attempt: the committed z is the z-offset plus
the base z minus the on-top bottom compensation, the committed quaternion
is the axis quaternion composed (in order) with the intrinsic orientation
and then the reference rotation, and every enabled check passed. -/
theorem attemptOnce_commit {P : Prims} {u : UCfg} {rc : ResCtx}
    {negRef : Option (List String)} {pts : Vec3 × Vec3 × Vec3} {onTop : Bool}
    {obj : MObj} {placed : Table} {rng : Rng} {pos : Vec3} {q : Quat4} {r2 : Rng}
    (h : attemptOnce P u rc negRef pts onTop obj placed rng = .commit pos q r2) :
    pos.2.2 = u.zOffset + rc.base.2.2 - (if onTop then obj.bottom else 0)
    ∧ (∃ a qa, axisQuat P u.rotationAxis a = some qa ∧
        q = toWXYZ (P.qmul (toXYZW (P.refRotQuat u.referenceRot))
          (toXYZW (match obj.initQuat with | some iq => P.qmul qa iq | none => qa))))
    ∧ runChecks P u rc negRef pts obj pos q placed = .pass := by
  unfold attemptOnce at h
  dsimp only at h
  split at h
  · exact absurd h (by simp)
  · split at h
    · cases h
      refine ⟨rfl, ?_, ?_⟩
      · obtain ⟨a, ha⟩ := sampleQuatU_fst_ok
          (show (sampleQuatU P u
            ((rng.uniform u.xRange.1 u.xRange.2).2.uniform u.yRange.1 u.yRange.2).2).1
            = Except.ok _ by assumption)
        exact ⟨a, _, ha, rfl⟩
      · assumption
    · exact absurd h (by simp)
    · exact absurd h (by simp)
    · exact absurd h (by simp)

/-- Inversion of a successful attempt loop: some generator state ran a
committing attempt against the same table. -/
theorem attemptLoop_placedL {P : Prims} {u : UCfg} {rc : ResCtx}
    {negRef : Option (List String)} {pts : Vec3 × Vec3 × Vec3} {onTop : Bool}
    {obj : MObj} {placed : Table} {pos : Vec3} {q : Quat4} {r2 : Rng} :
    ∀ (n : ℕ) (rng : Rng),
    attemptLoop P u rc negRef pts onTop obj placed n rng = .placedL pos q r2 →
    ∃ g, attemptOnce P u rc negRef pts onTop obj placed g = .commit pos q r2
  | 0, rng, h => by exact absurd h (by simp [attemptLoop])
  | Nat.succ n, rng, h => by
      unfold attemptLoop at h
      rcases ha : attemptOnce P u rc negRef pts onTop obj placed rng
        with ⟨p0, q0, r0⟩ | ⟨r0⟩ | ⟨r0⟩ | ⟨e, r0⟩
      all_goals rw [ha] at h
      · rcases h with ⟨⟩
        exact ⟨rng, ha⟩
      · exact attemptLoop_placedL n r0 h
      · exact absurd h (by simp)
      · exact absurd h (by simp)

/-- Characterization of a successful per-object pass: the input table is
preserved, every output entry is either an input entry or a committed
attempt for one of the sampler's objects against some intermediate table
extending the input, and every object got an entry. -/
theorem placeObjs_ok_char (P : Prims) (u : UCfg) (rc : ResCtx)
    (negRef : Option (List String)) (onTop : Bool) :
    ∀ (objs : List MObj) (placed : Table) (rng : Rng) (out : Table) (rng2 : Rng),
    placeObjs P u rc negRef onTop objs placed rng = (.ok out, rng2) →
    (∀ e ∈ out, e ∈ placed ∨
      (e.2.2.2 ∈ objs ∧ e.1 = e.2.2.2.name ∧
       ∃ placed0 g r2, (∀ x ∈ placed, x ∈ placed0) ∧
         attemptOnce P u rc negRef (regionPoints P u rc.base) onTop e.2.2.2 placed0 g
           = .commit e.2.1 e.2.2.1 r2))
    ∧ (∀ x ∈ placed, x ∈ out)
    ∧ (∀ o ∈ objs, o.name ∈ keysOf out)
  | [], placed, rng, out, rng2, h => by
      unfold placeObjs at h
      rcases h with ⟨⟩
      exact ⟨fun e he => Or.inl he, fun x hx => hx, fun o ho => absurd ho (List.not_mem_nil o)⟩
  | obj :: rest, placed, rng, out, rng2, h => by
      unfold placeObjs at h
      by_cases hdup : (lookupTbl placed obj.name).isSome
      · rw [if_pos hdup] at h
        exact absurd h (by simp)
      · rw [if_neg hdup] at h
        rcases hl : attemptLoop P u rc negRef (regionPoints P u rc.base) onTop obj placed
            u.numAttempts rng with ⟨p0, q0, r0⟩ | ⟨r0⟩ | ⟨e, r0⟩
        all_goals rw [hl] at h
        · obtain ⟨char, mono, compl⟩ :=
            placeObjs_ok_char P u rc negRef onTop rest
              (placed ++ [(obj.name, (p0, q0, obj))]) r0 out rng2 h
          obtain ⟨g, hg⟩ := attemptLoop_placedL u.numAttempts rng hl
          refine ⟨?_, ?_, ?_⟩
          · intro e he
            rcases char e he with hin | ⟨ho, hk, p1, g1, r1, hsup, hco⟩
            · rcases List.mem_append.1 hin with hin | hin
              · exact Or.inl hin
              · rcases List.mem_singleton.1 hin with ⟨⟩
                exact Or.inr ⟨List.mem_cons_self _ _, rfl,
                  placed, g, r0, fun x hx => hx, hg⟩
            · exact Or.inr ⟨List.mem_cons_of_mem _ ho, hk, p1, g1, r1,
                fun x hx => hsup x (List.mem_append_left _ hx), hco⟩
          · intro x hx
            exact mono x (List.mem_append_left _ hx)
          · intro o ho
            rcases List.mem_cons.1 ho with ho | ho
            · subst ho
              exact mem_keysOf_of_mem
                (mono (o.name, (p0, q0, o)) (List.mem_append_right _ (List.mem_singleton.2 rfl)))
            · exact compl o ho
        · exact absurd h (by simp)
        · exact absurd h (by simp)

/-- Inversion of a successful `sampleUniform`: resolution succeeded, its
store is the returned store, and the object pass ran from the resolved
context. -/
theorem sampleUniform_ok_char {P : Prims} {u : UCfg} {tbl : Table}
    {ref : Option Ref} {negRef : Option (List String)} {onTop : Bool}
    {store : Store} {rng : Rng} {out : Table} {st2 : Store} {rng2 : Rng}
    (h : sampleUniform P u tbl ref negRef onTop store rng = ⟨.ok out, st2, rng2⟩) :
    ∃ rc rngR, resolveRef u tbl ref onTop store rng
        = (.ok rc, st2, rngR)
      ∧ placeObjs P u rc negRef onTop u.objects tbl rngR = (.ok out, rng2) := by
  unfold sampleUniform at h
  rcases hr : resolveRef u tbl ref onTop store rng with ⟨er, str, rngr⟩
  rw [hr] at h
  rcases er with e | rc
  · exact absurd h (by simp)
  · dsimp only at h
    rcases hp : placeObjs P u rc negRef onTop u.objects tbl rngr with ⟨pres, prng⟩
    rw [hp] at h
    rcases h with ⟨⟩
    exact ⟨rc, rngr, rfl, hp⟩

/-- Boolean membership agrees with list membership. -/
theorem memS_iff : ∀ (l : List String) (k : String), memS l k = true ↔ k ∈ l
  | [], k => by simp [memS]
  | a :: rest, k => by
      unfold memS
      by_cases ha : a = k
      · simp [ha]
      · simp only [if_neg ha, memS_iff rest k, List.mem_cons]
        constructor
        · exact Or.inr
        · intro h2
          rcases h2 with h2 | h2
          · exact absurd h2.symm ha
          · exact h2

/-- Keys after a single insert: the old keys plus the inserted key. -/
theorem mem_keysOf_insertTbl : ∀ (t : Table) (k2 k : String) (v : Placement),
    k2 ∈ keysOf (insertTbl t k v) ↔ k2 ∈ keysOf t ∨ k2 = k
  | [], k2, k, v => by
      constructor
      · intro h
        exact Or.inr (List.mem_singleton.1 h)
      · intro h
        rcases h with h | h
        · exact absurd h (List.not_mem_nil k2)
        · exact List.mem_singleton.2 h
  | (ke, ve) :: rest, k2, k, v => by
      unfold insertTbl
      by_cases hk : ke = k
      · rw [if_pos hk]
        subst hk
        constructor
        · intro h
          rcases List.mem_cons.1 h with h | h
          · exact Or.inr h
          · exact Or.inl (List.mem_cons_of_mem _ h)
        · intro h
          rcases h with h | h
          · rcases List.mem_cons.1 h with h | h
            · rw [h]
              exact List.mem_cons_self _ _
            · exact List.mem_cons_of_mem _ h
          · rw [h]
            exact List.mem_cons_self _ _
      · rw [if_neg hk]
        constructor
        · intro h
          rcases List.mem_cons.1 h with h | h
          · refine Or.inl ?_
            rw [h]
            exact List.mem_cons_self _ _
          · rcases (mem_keysOf_insertTbl rest k2 k v).1 h with h | h
            · exact Or.inl (List.mem_cons_of_mem _ h)
            · exact Or.inr h
        · intro h
          rcases h with h | h
          · rcases List.mem_cons.1 h with h | h
            · rw [h]
              exact List.mem_cons_self _ _
            · exact List.mem_cons_of_mem _
                ((mem_keysOf_insertTbl rest k2 k v).2 (Or.inl h))
          · exact List.mem_cons_of_mem _
              ((mem_keysOf_insertTbl rest k2 k v).2 (Or.inr h))

/-- Keys after a dict update: the old keys plus the delta keys. -/
theorem mem_keysOf_updateTbl {k2 : String} :
    ∀ (d t : Table), k2 ∈ keysOf (updateTbl t d) ↔ k2 ∈ keysOf t ∨ k2 ∈ keysOf d
  | [], t => by
      constructor
      · exact Or.inl
      · intro h
        rcases h with h | h
        · exact h
        · exact absurd h (List.not_mem_nil k2)
  | (k, v) :: rest, t => by
      unfold updateTbl
      rw [mem_keysOf_updateTbl rest (insertTbl t k v)]
      rw [mem_keysOf_insertTbl t k2 k v]
      constructor
      · rintro ((h2 | h2) | h2)
        · exact Or.inl h2
        · exact Or.inr (by rw [h2]; exact List.mem_cons_self _ _)
        · exact Or.inr (List.mem_cons_of_mem _ h2)
      · rintro (h2 | h2)
        · exact Or.inl (Or.inl h2)
        · rcases List.mem_cons.1 h2 with h2 | h2
          · exact Or.inl (Or.inr h2)
          · exact Or.inr h2

/-- Keys of the owned-names filter: old keys that pass the name test. -/
theorem mem_keysOf_filter_memS {t : Table} {L : List String} {k : String} :
    k ∈ keysOf (t.filter (fun e => memS L e.1)) ↔ k ∈ keysOf t ∧ k ∈ L := by
  constructor
  · intro h
    obtain ⟨e, he, hk⟩ := List.mem_map.1 h
    obtain ⟨he2, hp⟩ := List.mem_filter.1 he
    exact ⟨hk ▸ mem_keysOf_of_mem he2, hk ▸ (memS_iff L e.1).1 hp⟩
  · rintro ⟨h1, h2⟩
    obtain ⟨e, he, hk⟩ := List.mem_map.1 h1
    refine List.mem_map.2 ⟨e, List.mem_filter.2 ⟨he, ?_⟩, hk⟩
    exact (memS_iff L e.1).2 (hk ▸ h2)

/- A sampler's set of owned object names is unchanged by running it (only
registered dicts are mutated). -/
mutual
theorem objNames_node_preserved (P : Prims) (s : PSampler) (tbl : Table)
    (effRef : Option Ref) (effNeg : Option (List String)) (effTop dup : Bool)
    (st : Store) (g : Rng) :
    objNamesNode (sampleNode P s tbl effRef effNeg effTop dup st g).updated
      = objNamesNode s := by
  cases s with
  | uniform u =>
      unfold sampleNode
      split
      · rfl
      · rfl
  | composite cnm cs =>
      unfold sampleNode
      split
      · rfl
      · split
        · rfl
        · have hch := objNames_children_preserved P cs tbl effRef effTop st g
          dsimp only
          split
          · exact hch
          · exact hch
theorem objNames_children_preserved (P : Prims) (cs : ChildList) (tbl : Table)
    (ref : Option Ref) (onTop : Bool) (st : Store) (g : Rng) :
    objNamesChildren (sampleChildren P cs tbl ref onTop st g).updated
      = objNamesChildren cs := by
  cases cs with
  | nil => rfl
  | cons key sub args opt rest =>
      unfold sampleChildren
      dsimp only
      split
      · dsimp only [ChOut.updated]
        unfold objNamesChildren
        rw [objNames_node_preserved, objNames_children_preserved]
      · split
        · dsimp only [ChOut.updated]
          unfold objNamesChildren
          rw [objNames_node_preserved, objNames_children_preserved]
        · dsimp only [ChOut.updated]
          unfold objNamesChildren
          rw [objNames_node_preserved]
      · dsimp only [ChOut.updated]
        unfold objNamesChildren
        rw [objNames_node_preserved]
end

/-- Key discipline of a successful uniform call: output keys are input keys
or own object names, every object got an entry, and input keys persist. -/
theorem sampleUniform_res_ok_keys {P : Prims} {u : UCfg} {tbl : Table}
    {ref : Option Ref} {negRef : Option (List String)} {onTop : Bool}
    {store : Store} {rng : Rng} {out : Table}
    (h : (sampleUniform P u tbl ref negRef onTop store rng).res = .ok out) :
    (∀ k, k ∈ keysOf out → k ∈ keysOf tbl ∨ k ∈ u.objects.map (fun o => o.name))
    ∧ (∀ o, o ∈ u.objects → o.name ∈ keysOf out)
    ∧ (∀ k, k ∈ keysOf tbl → k ∈ keysOf out) := by
  have hfull : sampleUniform P u tbl ref negRef onTop store rng
      = ⟨.ok out, (sampleUniform P u tbl ref negRef onTop store rng).store,
         (sampleUniform P u tbl ref negRef onTop store rng).rng⟩ := by
    rw [← h]
  obtain ⟨rc, rngR, hres, hplace⟩ := sampleUniform_ok_char hfull
  obtain ⟨char, mono, compl⟩ :=
    placeObjs_ok_char P u rc negRef onTop u.objects tbl rngR out _ hplace
  refine ⟨?_, ?_, ?_⟩
  · intro k hk
    obtain ⟨e, he, hke⟩ := List.mem_map.1 hk
    rcases char e he with hin | ⟨ho, hname, _⟩
    · exact Or.inl (hke ▸ mem_keysOf_of_mem hin)
    · refine Or.inr ?_
      rw [← hke, hname]
      exact List.mem_map_of_mem _ ho
  · intro o ho
    exact compl o ho
  · intro k hk
    obtain ⟨e, he, hke⟩ := List.mem_map.1 hk
    exact hke ▸ mem_keysOf_of_mem (mono e he)

/- Mandatory-chain names are owned names. -/
mutual
theorem mandNames_sub_node : ∀ (s : PSampler) (k : String),
    k ∈ mandNamesNode s → k ∈ objNamesNode s
  | .uniform _, _, h => h
  | .composite _ cs, k, h => mandNames_sub_children cs k h
theorem mandNames_sub_children : ∀ (cs : ChildList) (k : String),
    k ∈ mandNamesChildren cs → k ∈ objNamesChildren cs
  | .nil, _, h => h
  | .cons key sub args opt rest, k, h => by
      unfold mandNamesChildren at h
      unfold objNamesChildren
      rcases List.mem_append.1 h with h | h
      · cases opt with
        | true => exact absurd h (List.not_mem_nil k)
        | false => exact List.mem_append_left _ (mandNames_sub_node sub k h)
      · exact List.mem_append_right _ (mandNames_sub_children rest k h)
end

/-- With no registered `placed_objects` key, the child is called on the
accumulating table itself and no duplicate keyword arises. -/
theorem effChild_clean {args : Option SArgs} (tbl : Table) (ref : Option Ref)
    (onTop : Bool)
    (hargs : (match args with
      | some a => a.placedObjects.isNone
      | none => true) = true) :
    (effChild args tbl ref onTop).callTbl = tbl
    ∧ (effChild args tbl ref onTop).dupPlaced = false := by
  have hpo : (args.getD ⟨none, none, none, none⟩).placedObjects = none := by
    cases args with
    | none => rfl
    | some a => exact Option.isNone_iff_eq_none.1 hargs
  unfold effChild
  dsimp only
  rw [hpo]
  constructor
  · by_cases he : tbl.isEmpty
    · rw [if_pos he, List.isEmpty_iff.1 he]
      rfl
    · rw [if_neg he]
  · simp

/- Key discipline of successful sampler runs, for clean configurations:
output keys come from the input table or from owned objects, every
mandatory-chain object has an entry, and (over a child list) input keys
persist. -/
mutual
theorem sampleNode_ok_keys (P : Prims) (s : PSampler) (tbl : Table)
    (effRef : Option Ref) (effNeg : Option (List String)) (effTop dup : Bool)
    (st : Store) (g : Rng) (out : Table) (st2 : Store) (g2 : Rng)
    (sA : PSampler) (tr : List (String × Option Ref × Bool))
    (hclean : cleanNode s = true)
    (h : sampleNode P s tbl effRef effNeg effTop dup st g = ⟨.ok out, st2, g2, sA, tr⟩) :
    (∀ k, k ∈ keysOf out → k ∈ keysOf tbl ∨ k ∈ objNamesNode s)
    ∧ (∀ k, k ∈ mandNamesNode s → k ∈ keysOf out) := by
  cases s with
  | uniform u =>
      unfold sampleNode at h
      split at h
      · exact absurd (congrArg NodeOut.res h) (by simp)
      · have hres : (sampleUniform P u tbl effRef effNeg effTop st g).res = .ok out :=
          congrArg NodeOut.res h
        obtain ⟨b1, b2, b3⟩ := sampleUniform_res_ok_keys hres
        constructor
        · exact b1
        · intro k hk
          obtain ⟨o, ho, hko⟩ := List.mem_map.1 hk
          exact hko ▸ b2 o ho
  | composite cnm cs =>
      unfold sampleNode at h
      split at h
      · exact absurd (congrArg NodeOut.res h) (by simp)
      · split at h
        · exact absurd (congrArg NodeOut.res h) (by simp)
        · dsimp only at h
          rcases hch : sampleChildren P cs tbl effRef effTop st g
            with ⟨cres, cst, cg, cupd, ctr⟩
          rw [hch] at h
          cases cres with
          | error e => exact absurd (congrArg NodeOut.res h) (by simp)
          | ok full =>
              dsimp only at h
              have hout : List.filter (fun e => memS (objNamesChildren cupd) e.1) full
                  = out := by
                have h2 := congrArg NodeOut.res h
                simpa using h2
              obtain ⟨c1, c2, c3⟩ := sampleChildren_ok_keys P cs tbl effRef effTop
                st g full cst cg cupd ctr hclean hch
              have hpres : objNamesChildren cupd = objNamesChildren cs := by
                have h3 := objNames_children_preserved P cs tbl effRef effTop st g
                rw [hch] at h3
                exact h3
              constructor
              · intro k hk
                rw [← hout] at hk
                have hm := (mem_keysOf_filter_memS.1 hk).2
                rw [hpres] at hm
                exact Or.inr hm
              · intro k hk
                rw [← hout]
                refine mem_keysOf_filter_memS.2 ⟨c2 k hk, ?_⟩
                rw [hpres]
                exact mandNames_sub_children cs k hk
theorem sampleChildren_ok_keys (P : Prims) (cs : ChildList) (tbl : Table)
    (ref : Option Ref) (onTop : Bool) (st : Store) (g : Rng) (out : Table)
    (st2 : Store) (g2 : Rng) (csA : ChildList)
    (tr : List (String × Option Ref × Bool))
    (hclean : cleanChildren cs = true)
    (h : sampleChildren P cs tbl ref onTop st g = ⟨.ok out, st2, g2, csA, tr⟩) :
    (∀ k, k ∈ keysOf out → k ∈ keysOf tbl ∨ k ∈ objNamesChildren cs)
    ∧ (∀ k, k ∈ mandNamesChildren cs → k ∈ keysOf out)
    ∧ (∀ k, k ∈ keysOf tbl → k ∈ keysOf out) := by
  cases cs with
  | nil =>
      have hres : (Except.ok tbl : Except SampleErr Table) = .ok out :=
        congrArg ChOut.res h
      cases hres
      exact ⟨fun k hk => Or.inl hk, fun k hk => absurd hk (List.not_mem_nil k),
        fun k hk => hk⟩
  | cons key sub args opt rest =>
      have hcs := hclean
      unfold cleanChildren at hcs
      rw [Bool.and_eq_true, Bool.and_eq_true] at hcs
      obtain ⟨⟨hargs, hsub⟩, hrest⟩ := hcs
      unfold sampleChildren at h
      dsimp only at h
      obtain ⟨hct, hdp⟩ := effChild_clean tbl ref onTop hargs
      rw [hct, hdp] at h
      rcases hno : sampleNode P sub tbl (effChild args tbl ref onTop).effRef
          (effChild args tbl ref onTop).effNeg (effChild args tbl ref onTop).effTop
          false st g with ⟨nres, nst, ng, nupd, ntr⟩
      rw [hno] at h
      cases nres with
      | ok newPl =>
          dsimp only at h
          rcases hrr : sampleChildren P rest (updateTbl tbl newPl) ref onTop nst ng
            with ⟨rres, rst, rg, rupd, rtr⟩
          rw [hrr] at h
          have hres2 : rres = .ok out := congrArg ChOut.res h
          subst hres2
          obtain ⟨n1, n2⟩ := sampleNode_ok_keys P sub tbl
            (effChild args tbl ref onTop).effRef (effChild args tbl ref onTop).effNeg
            (effChild args tbl ref onTop).effTop false st g newPl nst ng nupd ntr
            hsub hno
          obtain ⟨r1, r2, r3⟩ := sampleChildren_ok_keys P rest (updateTbl tbl newPl)
            ref onTop nst ng out rst rg rupd rtr hrest hrr
          refine ⟨?_, ?_, ?_⟩
          · intro k hk
            rcases r1 k hk with hk2 | hk2
            · rcases (mem_keysOf_updateTbl newPl tbl).1 hk2 with hk3 | hk3
              · exact Or.inl hk3
              · rcases n1 k hk3 with hk4 | hk4
                · exact Or.inl hk4
                · exact Or.inr (List.mem_append_left _ hk4)
            · exact Or.inr (List.mem_append_right _ hk2)
          · intro k hk
            unfold mandNamesChildren at hk
            rcases List.mem_append.1 hk with hk | hk
            · cases opt with
              | true => exact absurd hk (List.not_mem_nil k)
              | false =>
                  exact r3 k ((mem_keysOf_updateTbl newPl tbl).2 (Or.inr (n2 k hk)))
            · exact r2 k hk
          · intro k hk
            exact r3 k ((mem_keysOf_updateTbl newPl tbl).2 (Or.inl hk))
      | error e =>
          cases e with
          | randomization m =>
              dsimp only at h
              by_cases hopt : opt = true
              rw [if_pos hopt] at h
              · rcases hrr : sampleChildren P rest tbl ref onTop nst ng
                  with ⟨rres, rst, rg, rupd, rtr⟩
                rw [hrr] at h
                have hres2 : rres = .ok out := congrArg ChOut.res h
                subst hres2
                obtain ⟨r1, r2, r3⟩ := sampleChildren_ok_keys P rest tbl
                  ref onTop nst ng out rst rg rupd rtr hrest hrr
                refine ⟨?_, ?_, ?_⟩
                · intro k hk
                  rcases r1 k hk with hk2 | hk2
                  · exact Or.inl hk2
                  · exact Or.inr (List.mem_append_right _ hk2)
                · intro k hk
                  unfold mandNamesChildren at hk
                  rcases List.mem_append.1 hk with hk | hk
                  · rw [if_pos hopt] at hk
                    exact absurd hk (List.not_mem_nil k)
                  · exact r2 k hk
                · exact r3
              · rw [if_neg hopt] at h
                exact absurd (congrArg ChOut.res h) (by simp)
          | assertionError m => exact absurd (congrArg ChOut.res h) (by simp)
          | valueError m => exact absurd (congrArg ChOut.res h) (by simp)
          | typeError m => exact absurd (congrArg ChOut.res h) (by simp)
          | attributeError m => exact absurd (congrArg ChOut.res h) (by simp)
          | keyError m => exact absurd (congrArg ChOut.res h) (by simp)
end

/-- Unfolding equation for one child step (the scrutinee is a constructor,
so this is definitional). -/
theorem sampleChildren_cons (P : Prims) (key : String) (sub : PSampler)
    (args : Option SArgs) (opt : Bool) (rest : ChildList) (tbl : Table)
    (ref : Option Ref) (onTop : Bool) (st : Store) (g : Rng) :
    sampleChildren P (.cons key sub args opt rest) tbl ref onTop st g =
      (let ec := effChild args tbl ref onTop
       let no := sampleNode P sub ec.callTbl ec.effRef ec.effNeg ec.effTop
         ec.dupPlaced st g
       match no.res with
       | .ok newPl =>
           let r := sampleChildren P rest (updateTbl tbl newPl) ref onTop no.store no.rng
           ⟨r.res, r.store, r.rng, .cons key no.updated ec.args2 opt r.updated,
            (key, ec.effRef, ec.effTop) :: r.trace⟩
       | .error (.randomization m) =>
           if opt then
             let r := sampleChildren P rest tbl ref onTop no.store no.rng
             ⟨r.res, r.store, r.rng, .cons key no.updated ec.args2 opt r.updated,
              (key, ec.effRef, ec.effTop) :: r.trace⟩
           else
             ⟨.error (.randomization m), no.store, no.rng,
              .cons key no.updated ec.args2 opt rest, [(key, ec.effRef, ec.effTop)]⟩
       | .error e =>
           ⟨.error e, no.store, no.rng, .cons key no.updated ec.args2 opt rest,
            [(key, ec.effRef, ec.effTop)]⟩) := rfl

/-- Running an appended child list decomposes: after the prefix succeeds,
the suffix runs from the prefix's accumulated state. -/
theorem sampleChildren_append_ok (P : Prims) :
    ∀ (pre : ChildList) (post : ChildList) (tbl : Table) (ref : Option Ref)
      (onTop : Bool) (st : Store) (g : Rng) (t1 : Table) (st1 : Store) (g1 : Rng)
      (u1 : ChildList) (tr1 : List (String × Option Ref × Bool)),
    sampleChildren P pre tbl ref onTop st g = ⟨.ok t1, st1, g1, u1, tr1⟩ →
    sampleChildren P (appendCL pre post) tbl ref onTop st g =
      ⟨(sampleChildren P post t1 ref onTop st1 g1).res,
       (sampleChildren P post t1 ref onTop st1 g1).store,
       (sampleChildren P post t1 ref onTop st1 g1).rng,
       appendCL u1 (sampleChildren P post t1 ref onTop st1 g1).updated,
       tr1 ++ (sampleChildren P post t1 ref onTop st1 g1).trace⟩
  | .nil, post, tbl, ref, onTop, st, g, t1, st1, g1, u1, tr1, hpre => by
      have h1 : (⟨.ok tbl, st, g, ChildList.nil, []⟩ : ChOut)
          = ⟨.ok t1, st1, g1, u1, tr1⟩ := hpre
      cases h1
      rfl
  | .cons key sub args opt rest, post, tbl, ref, onTop, st, g, t1, st1, g1, u1, tr1,
      hpre => by
      rw [sampleChildren_cons] at hpre
      show sampleChildren P (.cons key sub args opt (appendCL rest post)) tbl ref
        onTop st g = _
      rw [sampleChildren_cons]
      dsimp only at hpre ⊢
      rcases hno : sampleNode P sub (effChild args tbl ref onTop).callTbl
          (effChild args tbl ref onTop).effRef (effChild args tbl ref onTop).effNeg
          (effChild args tbl ref onTop).effTop (effChild args tbl ref onTop).dupPlaced
          st g with ⟨nres, nst, ng, nupd, ntr⟩
      rw [hno] at hpre
      cases nres with
      | ok newPl =>
          dsimp only at hpre ⊢
          rcases hrr : sampleChildren P rest (updateTbl tbl newPl) ref onTop nst ng
            with ⟨rres, rst, rg, rupd, rtr⟩
          rw [hrr] at hpre
          cases hpre
          rw [sampleChildren_append_ok P rest post (updateTbl tbl newPl) ref onTop
            nst ng t1 rst rg rupd rtr hrr]
          simp only [appendCL, List.cons_append]
      | error e =>
          cases e with
          | randomization m =>
              dsimp only at hpre ⊢
              by_cases hopt : opt = true
              · rw [if_pos hopt] at hpre ⊢
                rcases hrr : sampleChildren P rest tbl ref onTop nst ng
                  with ⟨rres, rst, rg, rupd, rtr⟩
                rw [hrr] at hpre
                cases hpre
                rw [sampleChildren_append_ok P rest post tbl ref onTop
                  nst ng t1 rst rg rupd rtr hrr]
                simp only [appendCL, List.cons_append]
              · rw [if_neg hopt] at hpre
                exact absurd (congrArg ChOut.res hpre) (by simp)
          | assertionError m => exact absurd (congrArg ChOut.res hpre) (by simp)
          | valueError m => exact absurd (congrArg ChOut.res hpre) (by simp)
          | typeError m => exact absurd (congrArg ChOut.res hpre) (by simp)
          | attributeError m => exact absurd (congrArg ChOut.res hpre) (by simp)
          | keyError m => exact absurd (congrArg ChOut.res hpre) (by simp)

/-- Running an appended child list decomposes: a failing prefix fails the
whole run with the suffix left untouched. -/
theorem sampleChildren_append_err (P : Prims) :
    ∀ (pre : ChildList) (post : ChildList) (tbl : Table) (ref : Option Ref)
      (onTop : Bool) (st : Store) (g : Rng) (e : SampleErr) (st1 : Store) (g1 : Rng)
      (u1 : ChildList) (tr1 : List (String × Option Ref × Bool)),
    sampleChildren P pre tbl ref onTop st g = ⟨.error e, st1, g1, u1, tr1⟩ →
    sampleChildren P (appendCL pre post) tbl ref onTop st g =
      ⟨.error e, st1, g1, appendCL u1 post, tr1⟩
  | .nil, post, tbl, ref, onTop, st, g, e, st1, g1, u1, tr1, hpre => by
      have h1 : (⟨.ok tbl, st, g, ChildList.nil, []⟩ : ChOut)
          = ⟨.error e, st1, g1, u1, tr1⟩ := hpre
      exact absurd (congrArg ChOut.res h1) (by simp)
  | .cons key sub args opt rest, post, tbl, ref, onTop, st, g, e, st1, g1, u1, tr1,
      hpre => by
      rw [sampleChildren_cons] at hpre
      show sampleChildren P (.cons key sub args opt (appendCL rest post)) tbl ref
        onTop st g = _
      rw [sampleChildren_cons]
      dsimp only at hpre ⊢
      rcases hno : sampleNode P sub (effChild args tbl ref onTop).callTbl
          (effChild args tbl ref onTop).effRef (effChild args tbl ref onTop).effNeg
          (effChild args tbl ref onTop).effTop (effChild args tbl ref onTop).dupPlaced
          st g with ⟨nres, nst, ng, nupd, ntr⟩
      rw [hno] at hpre
      cases nres with
      | ok newPl =>
          dsimp only at hpre ⊢
          rcases hrr : sampleChildren P rest (updateTbl tbl newPl) ref onTop nst ng
            with ⟨rres, rst, rg, rupd, rtr⟩
          rw [hrr] at hpre
          cases hpre
          rw [sampleChildren_append_err P rest post (updateTbl tbl newPl) ref onTop
            nst ng e rst rg rupd rtr hrr]
          simp only [appendCL]
      | error e2 =>
          cases e2 with
          | randomization m =>
              dsimp only at hpre ⊢
              by_cases hopt : opt = true
              · rw [if_pos hopt] at hpre ⊢
                rcases hrr : sampleChildren P rest tbl ref onTop nst ng
                  with ⟨rres, rst, rg, rupd, rtr⟩
                rw [hrr] at hpre
                cases hpre
                rw [sampleChildren_append_err P rest post tbl ref onTop
                  nst ng e rst rg rupd rtr hrr]
                simp only [appendCL]
              · rw [if_neg hopt] at hpre ⊢
                cases hpre
                simp only [appendCL]
          | assertionError m =>
              dsimp only at hpre ⊢
              cases hpre
              simp only [appendCL]
          | valueError m =>
              dsimp only at hpre ⊢
              cases hpre
              simp only [appendCL]
          | typeError m =>
              dsimp only at hpre ⊢
              cases hpre
              simp only [appendCL]
          | attributeError m =>
              dsimp only at hpre ⊢
              cases hpre
              simp only [appendCL]
          | keyError m =>
              dsimp only at hpre ⊢
              cases hpre
              simp only [appendCL]

/-- Unfolding equation for a composite call with ordinary keywords (no
duplicate `placed_objects`, no `neg_reference`); definitional. -/
theorem sampleNode_composite (P : Prims) (cnm : String) (cs : ChildList)
    (tbl : Table) (effRef : Option Ref) (effTop : Bool) (st : Store) (g : Rng) :
    sampleNode P (.composite cnm cs) tbl effRef none effTop false st g =
      (let r := sampleChildren P cs tbl effRef effTop st g
       match r.res with
       | .error e => ⟨.error e, r.store, r.rng, .composite cnm r.updated, r.trace⟩
       | .ok full =>
           ⟨.ok (full.filter (fun e => memS (objNamesChildren r.updated) e.1)),
            r.store, r.rng, .composite cnm r.updated, r.trace⟩) := rfl

/-! Claim theorems. -/

/-- C6: when the reference is a (name, spawn id) pair and resolution
succeeds, the chosen spawn site is deactivated in the store produced by the
resolution step itself, and the whole `sample` call returns exactly that
store — whatever the attempt loop later does (success or
PlacementExhausted), so the deactivation happens before any placement
attempt and is never rolled back within the call. -/
theorem spawn_deactivated_at_resolution
    (P : Prims) (u : UCfg) (tbl : Table) (s : String) (sid : ℤ)
    (negRef : Option (List String)) (onTop : Bool) (store : Store) (rng : Rng)
    (rc : ResCtx) (st2 : Store) (rng2 : Rng) (rp : Vec3) (rq : Quat4) (ro : MObj)
    (hres : resolveRef u tbl (some (.bySpawn s sid)) onTop store rng
      = (.ok rc, st2, rng2))
    (hl : lookupTbl tbl s = some (rp, rq, ro)) :
    (∃ j, st2 = setSpawnInactive store ro j ∧ spawnActive st2 ro j = false)
    ∧ (sampleUniform P u tbl (some (.bySpawn s sid)) negRef onTop store rng).store
      = st2 := by
  constructor
  · unfold resolveRef at hres
    dsimp only at hres
    rw [hl] at hres
    dsimp only at hres
    by_cases hm : ro.isMJCF = false
    · rw [if_pos hm] at hres
      exact absurd (congrArg Prod.fst hres) (by simp)
    · rw [if_neg hm] at hres
      by_cases hone : sid = -1
      · rw [if_pos hone] at hres
        rcases hch : (rng.choose (activeSpawnIdx store ro)).1 with _ | j
        · rw [hch] at hres
          exact absurd (congrArg Prod.fst hres) (by simp)
        · rw [hch] at hres
          refine ⟨j, ?_, ?_⟩
          · exact (congrArg (fun p => p.2.1) hres).symm
          · have h2 : st2 = setSpawnInactive store ro j :=
              (congrArg (fun p => p.2.1) hres).symm
            rw [h2]
            unfold spawnActive
            rw [getFlags_setSpawnInactive]
            exact getD_set_false _ _
      · rw [if_neg hone] at hres
        rcases hpx : pyIndex ro.spawnSites sid with _ | js
        · rw [hpx] at hres
          exact absurd (congrArg Prod.fst hres) (by simp)
        · rw [hpx] at hres
          refine ⟨js.1, ?_, ?_⟩
          · exact (congrArg (fun p => p.2.1) hres).symm
          · have h2 : st2 = setSpawnInactive store ro js.1 :=
              (congrArg (fun p => p.2.1) hres).symm
            rw [h2]
            unfold spawnActive
            rw [getFlags_setSpawnInactive]
            exact getD_set_false _ _
  · unfold sampleUniform
    rw [hres]

/-- Witness for C6: spawn 0 of A, referenced as ("A", 0), is deactivated in
the returned store of a concrete call. -/
theorem spawn_deactivated_at_resolution_witness :
    (∃ j, [("A", [false, true])] = setSpawnInactive [] objA j
      ∧ spawnActive [("A", [false, true])] objA j = false)
    ∧ (sampleUniform trivPrims uD tblA (some (.bySpawn "A" 0)) none true [] ⟨[], []⟩).store
      = [("A", [false, true])] :=
  spawn_deactivated_at_resolution trivPrims uD tblA "A" 0 none true [] ⟨[], []⟩
    ⟨(0, 0, 1/2), some objA, .named "A"⟩ [("A", [false, true])] ⟨[], []⟩
    (0, 0, 0) (1, 0, 0, 0) objA
    (by norm_num +decide [resolveRef, lookupTbl, tblA, objA, pyIndex,
      setSpawnInactive, getFlags, vadd])
    (by norm_num +decide [lookupTbl, tblA])

/-- C1: the claim says every `MultiRegionSampler.sample` call draws a child
uniformly and returns that child's result, with only the child's failure
propagating.  In the code the constructor never runs the base initializer,
so the `rng` attribute is unset and every `sample` call raises
AttributeError before any draw or delegation: no constructed instance can
ever delegate (and the delegation itself would pass the keyword `fixtures`,
which `UniformRandomSampler.sample` does not accept). -/
theorem multiRegionSample_always_attribute_error
    (nm : String) (regions : List (String × RegionSite)) (side : String)
    (objects : List MObj) (rot : Rotation) (ax : String)
    (b v i : Bool) (z : ℚ) (m : MRSampler)
    (h : multiRegionInit nm regions side objects rot ax b v i z = .ok m)
    (P : Prims) (tbl : Table) (ref : Option Ref) (onTop : Bool) (store : Store) :
    multiRegionSample P m tbl ref onTop store =
      ⟨.error (.attributeError ("MultiRegionSampler object has no attribute rng")),
       store, none⟩ := by
  unfold multiRegionInit at h
  split at h
  · exact Except.noConfusion h
  · split at h
    · exact Except.noConfusion h
    · split at h
      · exact Except.noConfusion h
      · cases h
        rfl

/-- Witness for C1: a concretely constructed four-quadrant sampler with
side all raises AttributeError on a concrete call. -/
theorem multiRegionSample_always_attribute_error_witness :
    multiRegionSample trivPrims mrQuad [] none true [] =
      ⟨.error (.attributeError ("MultiRegionSampler object has no attribute rng")),
       [], none⟩ :=
  multiRegionSample_always_attribute_error "mr" quadRegions "all" [objM]
    (.fixed 0) "z" true true false 0 mrQuad (by rfl) trivPrims [] none true []

/-- C2 (evaluation at the failing input): object B with the
minimum-keypoint check enabled, reference A, budget five; the first drawn
candidate (x = 0) fails only the keypoint test.  The claim says a fresh
candidate is then drawn up to the budget; the code instead leaves the
attempt loop (`break`) and raises immediately.  The run returns
PlacementExhausted for B having consumed only the first attempt's two draws
(eight of ten remain), although the very next candidate (x = 1/2) passes
every enabled check. -/
theorem keypoint_break_aborts_retry_budget :
    (sampleUniform kpPrims u2 tblA (some (.byName "A")) none true []
      ⟨[0, 1/2, 1/2, 1/2, 1/2, 1/2, 1/2, 1/2, 1/2, 1/2], []⟩).res
      = .error (.randomization "B")
    ∧ (sampleUniform kpPrims u2 tblA (some (.byName "A")) none true []
      ⟨[0, 1/2, 1/2, 1/2, 1/2, 1/2, 1/2, 1/2, 1/2, 1/2], []⟩).rng.reals.length = 8
    ∧ runChecks kpPrims u2 ⟨(0, 0, 1/5), none, .named "A"⟩ none
        (regionPoints kpPrims u2 (0, 0, 1/5)) objB (1/2, 1/2, 1/4) (1, 0, 0, 0) tblA
      = .pass := by
  refine ⟨?_, ?_, ?_⟩
  · norm_num +decide [sampleUniform, resolveRef, placeObjs, attemptLoop,
      attemptOnce, runChecks, sampleQuatU, sampleRotAngle, axisQuat,
      regionPoints, Rng.uniform, Rng.nextReal, lookupTbl, kpPrims, u2, tblA,
      objA, objB, toXYZW, toWXYZ, overlapViolation, negCheck]
  · norm_num +decide [sampleUniform, resolveRef, placeObjs, attemptLoop,
      attemptOnce, runChecks, sampleQuatU, sampleRotAngle, axisQuat,
      regionPoints, Rng.uniform, Rng.nextReal, lookupTbl, kpPrims, u2, tblA,
      objA, objB, toXYZW, toWXYZ, overlapViolation, negCheck]
  · norm_num +decide [runChecks, kpPrims, u2, tblA, objA, objB, toXYZW,
      regionPoints, overlapViolation, negCheck, lookupTbl]

/-- C3 (evaluation at the failing input): one sub-sampler registered with
an (empty) `sample_args` dict.  The claim says every call's own reference
and on-top values are forwarded whenever the registered dict does not
specify them.  On the first call the composite writes the call's reference
into the registered dict in place; the second call, made with a different
reference, therefore finds the key present and forwards the first call's
value, as the recorded trace of effective arguments shows. -/
theorem stale_sample_args_reused_on_second_call :
    (sampleTop trivPrims comp3 [] (some (.byCoord (1, 1, 1))) true [] ⟨[], []⟩).trace
      = [("s", some (.byCoord (1, 1, 1)), true)]
    ∧ (sampleTop trivPrims
      (sampleTop trivPrims comp3 [] (some (.byCoord (1, 1, 1))) true [] ⟨[], []⟩).updated
      [] (some (.byCoord (2, 2, 2))) true [] ⟨[], []⟩).trace
      = [("s", some (.byCoord (1, 1, 1)), true)] := by
  constructor
  · norm_num +decide [sampleTop, sampleNode, sampleChildren, effChild, comp3,
      u3, mkU, sampleUniform, resolveRef, placeObjs, updateTbl, memS,
      objNamesChildren, objNamesNode, trivPrims]
  · norm_num +decide [sampleTop, sampleNode, sampleChildren, effChild, comp3,
      u3, mkU, sampleUniform, resolveRef, placeObjs, updateTbl, memS,
      objNamesChildren, objNamesNode, trivPrims]

/-- C5 counterexample: a composite whose single mandatory sub-sampler C is
itself a composite with a mandatory child placing m and an optional child
owning o that exhausts its (zero) budget.  The call succeeds, C is a
mandatory sub-sampler owning o, yet the returned mapping has no entry for
o — refuting that the delta contains an entry for every object of every
mandatory sub-sampler. -/
theorem mandatory_subsampler_object_missing_from_delta :
    (sampleTop trivPrims topC [] none true [] ⟨[], []⟩).res
      = .ok [("m", ((0, 0, 0), (1, 0, 0, 0), objM))]
    ∧ "o" ∈ objNamesNode innerC
    ∧ lookupTbl [("m", ((0, 0, 0), (1, 0, 0, 0), objM))] "o" = none := by
  refine ⟨?_, ?_, ?_⟩
  · norm_num +decide [sampleTop, sampleNode, sampleChildren, effChild, topC,
      innerC, uM, uO, mkU, objM, objO, sampleUniform, resolveRef, placeObjs,
      attemptLoop, attemptOnce, runChecks, sampleQuatU, sampleRotAngle,
      axisQuat, regionPoints, Rng.uniform, Rng.nextReal, lookupTbl, updateTbl,
      insertTbl, memS, objNamesChildren, objNamesNode, trivPrims, toXYZW,
      toWXYZ, overlapViolation, negCheck]
  · norm_num +decide [objNamesNode, objNamesChildren, innerC, uM, uO, mkU,
      objM, objO]
  · norm_num +decide [lookupTbl]

/-- C7: for every object newly placed by a call with a named reference and
on_top true, the committed z equals the sampler's z-offset plus the
reference entry's z plus the reference object's top extent minus the placed
object's own bottom extent. -/
theorem on_top_z_formula
    (P : Prims) (u : UCfg) (tbl : Table) (r : String)
    (negRef : Option (List String)) (store : Store) (rng : Rng)
    (out : Table) (st2 : Store) (rng2 : Rng) (rp : Vec3) (rq : Quat4) (ro : MObj)
    (h : sampleUniform P u tbl (some (.byName r)) negRef true store rng
      = ⟨.ok out, st2, rng2⟩)
    (hl : lookupTbl tbl r = some (rp, rq, ro))
    (e : String × Placement) (he : e ∈ out) (hnew : lookupTbl tbl e.1 = none) :
    e.2.1.2.2 = u.zOffset + (rp.2.2 + ro.top) - e.2.2.2.bottom := by
  obtain ⟨rc, rngR, hres, hplace⟩ := sampleUniform_ok_char h
  have hbase : rc.base.2.2 = rp.2.2 + ro.top := by
    unfold resolveRef at hres
    dsimp only at hres
    rw [hl] at hres
    simp only [if_pos] at hres
    have h1 := congrArg (fun p => p.1) hres
    dsimp only at h1
    cases h1
    rfl
  obtain ⟨char, _, _⟩ :=
    placeObjs_ok_char P u rc negRef true u.objects tbl rngR out rng2 hplace
  rcases char e he with hin | ⟨_, _, p0, g, r2x, _, hcommit⟩
  · have h2 := lookupTbl_isSome_of_mem tbl e hin
    rw [hnew] at h2
    exact absurd h2 (by simp)
  · have hz := (attemptOnce_commit hcommit).1
    rw [hbase] at hz
    simpa using hz

/-- Witness for C7: B placed on top of A lands its base at z = 1/4, which
is the z-offset 0 plus the z of A (0) plus the top extent of A (1/5) minus
the bottom extent of B (-1/20). -/
theorem on_top_z_formula_witness :
    (("B", ((0, 0, 1/4), (1, 0, 0, 0), objB)) : String × Placement).2.1.2.2
      = u7.zOffset + (((0, 0, 0) : Vec3).2.2 + objA.top) - objB.bottom :=
  on_top_z_formula trivPrims u7 tblA "A" none [] ⟨[], []⟩
    [("A", ((0, 0, 0), (1, 0, 0, 0), objA)), ("B", ((0, 0, 1/4), (1, 0, 0, 0), objB))]
    [] ⟨[], []⟩ (0, 0, 0) (1, 0, 0, 0) objA
    (by norm_num +decide [sampleUniform, resolveRef, placeObjs, attemptLoop,
      attemptOnce, runChecks, sampleQuatU, sampleRotAngle, axisQuat,
      regionPoints, Rng.uniform, Rng.nextReal, lookupTbl, tblA, objA, objB,
      u7, mkU, trivPrims, toXYZW, toWXYZ, overlapViolation, negCheck])
    (by norm_num +decide [lookupTbl, tblA])
    ("B", ((0, 0, 1/4), (1, 0, 0, 0), objB))
    (by simp)
    (by norm_num +decide [lookupTbl, tblA])

/-- Drawing a quaternion under an invalid rotation axis raises ValueError
(provided the angle draw itself succeeds). -/
theorem sampleQuatU_invalid_axis (P : Prims) (u : UCfg) (g : Rng)
    (hx : u.rotationAxis ≠ "x") (hy : u.rotationAxis ≠ "y")
    (hz : u.rotationAxis ≠ "z")
    (hrot : ∀ g2 : Rng, ∃ a, (sampleRotAngle P u.rotation g2).1 = .ok a) :
    (sampleQuatU P u g).1 = .error (.valueError
      ("Invalid rotation axis specified. Must be x, y, or z. Got: " ++ u.rotationAxis)) := by
  unfold sampleQuatU
  dsimp only
  obtain ⟨a, ha⟩ := hrot g
  rw [ha]
  dsimp only
  have hnone : axisQuat P u.rotationAxis a = none := by
    unfold axisQuat
    rw [if_neg hx, if_neg hy, if_neg hz]
  rw [hnone]

/-- Under an invalid rotation axis every attempt fails with ValueError. -/
theorem attemptOnce_invalid_axis (P : Prims) (u : UCfg) (rc : ResCtx)
    (negRef : Option (List String)) (pts : Vec3 × Vec3 × Vec3) (onTop : Bool)
    (obj : MObj) (placed : Table) (g : Rng)
    (hx : u.rotationAxis ≠ "x") (hy : u.rotationAxis ≠ "y")
    (hz : u.rotationAxis ≠ "z")
    (hrot : ∀ g2 : Rng, ∃ a, (sampleRotAngle P u.rotation g2).1 = .ok a) :
    ∃ g2, attemptOnce P u rc negRef pts onTop obj placed g
      = .failA (.valueError
        ("Invalid rotation axis specified. Must be x, y, or z. Got: " ++ u.rotationAxis)) g2 := by
  unfold attemptOnce
  dsimp only
  rw [sampleQuatU_invalid_axis P u _ hx hy hz hrot]
  exact ⟨_, rfl⟩

/-- C8: every committed orientation is built from an axis quaternion for
some drawn angle (an invalid axis instead raises ValueError on the first
attempt), composed with the object's intrinsic initial orientation when
declared, and then composed with the reference rotation, in that order. -/
theorem orientation_built_in_fixed_order :
    (∀ (P : Prims) (u : UCfg) (tbl : Table) (ref : Option Ref)
       (negRef : Option (List String)) (onTop : Bool) (store : Store) (rng : Rng)
       (out : Table) (st2 : Store) (rng2 : Rng) (e : String × Placement),
       sampleUniform P u tbl ref negRef onTop store rng = ⟨.ok out, st2, rng2⟩ →
       e ∈ out → lookupTbl tbl e.1 = none →
       ∃ a qa, axisQuat P u.rotationAxis a = some qa ∧
         e.2.2.1 = toWXYZ (P.qmul (toXYZW (P.refRotQuat u.referenceRot))
           (toXYZW (match e.2.2.2.initQuat with
             | some iq => P.qmul qa iq
             | none => qa))))
    ∧ (∀ (P : Prims) (u : UCfg) (tbl : Table) (ref : Option Ref)
       (negRef : Option (List String)) (onTop : Bool) (store : Store) (rng : Rng)
       (rc : ResCtx) (st2 : Store) (rngR : Rng) (obj0 : MObj) (os : List MObj),
       resolveRef u tbl ref onTop store rng = (.ok rc, st2, rngR) →
       u.objects = obj0 :: os →
       lookupTbl tbl obj0.name = none →
       u.rotationAxis ≠ "x" → u.rotationAxis ≠ "y" → u.rotationAxis ≠ "z" →
       (∀ g : Rng, ∃ a, (sampleRotAngle P u.rotation g).1 = .ok a) →
       0 < u.numAttempts →
       (sampleUniform P u tbl ref negRef onTop store rng).res
         = .error (.valueError
           ("Invalid rotation axis specified. Must be x, y, or z. Got: " ++ u.rotationAxis))) := by
  constructor
  · intro P u tbl ref negRef onTop store rng out st2 rng2 e h he hnew
    obtain ⟨rc, rngR, hres, hplace⟩ := sampleUniform_ok_char h
    obtain ⟨char, _, _⟩ :=
      placeObjs_ok_char P u rc negRef onTop u.objects tbl rngR out rng2 hplace
    rcases char e he with hin | ⟨_, _, p0, g, r2x, _, hcommit⟩
    · have h2 := lookupTbl_isSome_of_mem tbl e hin
      rw [hnew] at h2
      exact absurd h2 (by simp)
    · exact (attemptOnce_commit hcommit).2.1
  · intro P u tbl ref negRef onTop store rng rc st2 rngR obj0 os hres hobjs
      hfresh hx hy hz hrot hatt
    unfold sampleUniform
    rw [hres]
    dsimp only
    rw [hobjs]
    unfold placeObjs
    rw [hfresh]
    rw [if_neg (by simp : ¬((none : Option Placement).isSome = true))]
    rcases hn : u.numAttempts with _ | k
    · rw [hn] at hatt
      exact absurd hatt (by simp)
    · unfold attemptLoop
      obtain ⟨g2, hat⟩ := attemptOnce_invalid_axis P u rc negRef
        (regionPoints P u rc.base) onTop obj0 tbl rngR hx hy hz hrot
      rw [hat]

/-- Witness for C8: the committed orientation of B in a concrete run has
the axis-quaternion form, and a concrete sampler with axis w raises the
ValueError. -/
theorem orientation_built_in_fixed_order_witness :
    (∃ a qa, axisQuat trivPrims u7.rotationAxis a = some qa ∧
       ((1, 0, 0, 0) : Quat4) = toWXYZ (trivPrims.qmul
         (toXYZW (trivPrims.refRotQuat u7.referenceRot))
         (toXYZW (match objB.initQuat with
           | some iq => trivPrims.qmul qa iq
           | none => qa))))
    ∧ (sampleUniform trivPrims u8 [] none none true [] ⟨[], []⟩).res
      = .error (.valueError
        ("Invalid rotation axis specified. Must be x, y, or z. Got: " ++ u8.rotationAxis)) :=
  ⟨orientation_built_in_fixed_order.1 trivPrims u7 tblA (some (.byName "A"))
      none true [] ⟨[], []⟩
      [("A", ((0, 0, 0), (1, 0, 0, 0), objA)), ("B", ((0, 0, 1/4), (1, 0, 0, 0), objB))]
      [] ⟨[], []⟩ ("B", ((0, 0, 1/4), (1, 0, 0, 0), objB))
      (by norm_num +decide [sampleUniform, resolveRef, placeObjs, attemptLoop,
        attemptOnce, runChecks, sampleQuatU, sampleRotAngle, axisQuat,
        regionPoints, Rng.uniform, Rng.nextReal, lookupTbl, tblA, objA, objB,
        u7, mkU, trivPrims, toXYZW, toWXYZ, overlapViolation, negCheck])
      (by simp)
      (by norm_num +decide [lookupTbl, tblA]),
   orientation_built_in_fixed_order.2 trivPrims u8 [] none none true [] ⟨[], []⟩
      ⟨(0, 0, 0), none, .absent⟩ [] ⟨[], []⟩ objB []
      rfl rfl rfl
      (by norm_num +decide [u8]) (by norm_num +decide [u8]) (by norm_num +decide [u8])
      (fun g => ⟨0, rfl⟩) (by norm_num [u8])⟩

/-- A passing check block under enabled overlap rejection means the
overlap scan found no violation. -/
theorem runChecks_pass_no_overlap {P : Prims} {u : UCfg} {rc : ResCtx}
    {negRef : Option (List String)} {pts : Vec3 × Vec3 × Vec3} {obj : MObj}
    {pos : Vec3} {q : Quat4} {placed : Table}
    (hv : u.ensureValid = true)
    (h : runChecks P u rc negRef pts obj pos q placed = .pass) :
    overlapViolation P rc.spawnRef obj pos (toXYZW q) placed = false := by
  by_cases hov : overlapViolation P rc.spawnRef obj pos (toXYZW q) placed = true
  · exfalso
    unfold runChecks at h
    dsimp only at h
    rw [hv, hov] at h
    simp at h
    repeat' first
      | exact Verdict.noConfusion h
      | split at h
  · exact Bool.eq_false_iff.mpr hov

/-- When the overlap scan passes with a spawn owner present among the
placed entries, the candidate intersects that owner (the inverted check). -/
theorem overlapViolation_false_owner {P : Prims} {obj : MObj} {pos : Vec3}
    {quatX : Quat4} {placed : Table} {s : String} {rp : Vec3} {rq : Quat4}
    {ro : MObj}
    (hmem : (s, (rp, rq, ro)) ∈ placed)
    (h : overlapViolation P (some ro) obj pos quatX placed = false) :
    P.objsIntersect obj pos quatX ro rp (toXYZW rq) = true := by
  unfold overlapViolation at h
  have h2 := (List.any_eq_false.mp h) _ hmem
  simpa using h2

/-- A successful spawn-reference resolution records the owner object as the
overlap exemption (`spawn_ref_obj`). -/
theorem resolveRef_spawn_spawnRef {u : UCfg} {tbl : Table} {s : String}
    {sid : ℤ} {onTop : Bool} {store : Store} {rng : Rng} {rc : ResCtx}
    {st2 : Store} {rngR : Rng} {rp : Vec3} {rq : Quat4} {ro : MObj}
    (hres : resolveRef u tbl (some (.bySpawn s sid)) onTop store rng
      = (.ok rc, st2, rngR))
    (hl : lookupTbl tbl s = some (rp, rq, ro)) :
    rc.spawnRef = some ro := by
  unfold resolveRef at hres
  dsimp only at hres
  rw [hl] at hres
  dsimp only at hres
  by_cases hm : ro.isMJCF = false
  · rw [if_pos hm] at hres
    exact absurd (congrArg (fun p => p.1) hres) (by simp)
  · rw [if_neg hm] at hres
    by_cases hone : sid = -1
    · rw [if_pos hone] at hres
      rcases hch : (rng.choose (activeSpawnIdx store ro)).1 with _ | j
      · rw [hch] at hres
        exact absurd (congrArg (fun p => p.1) hres) (by simp)
      · rw [hch] at hres
        have h1 := congrArg (fun p => p.1) hres
        dsimp only at h1
        cases h1
        rfl
    · rw [if_neg hone] at hres
      rcases hpx : pyIndex ro.spawnSites sid with _ | js
      · rw [hpx] at hres
        exact absurd (congrArg (fun p => p.1) hres) (by simp)
      · rw [hpx] at hres
        have h1 := congrArg (fun p => p.1) hres
        dsimp only at h1
        cases h1
        rfl

/-- C10: with overlap rejection enabled and a spawn-site reference, the
scan does not merely exempt the spawn owner: a candidate that does not
intersect the owner can never pass the checks, and every newly committed
placement of such a call intersects the owner's oriented volume. -/
theorem spawn_reference_requires_owner_intersection :
    (∀ (P : Prims) (u : UCfg) (rc : ResCtx) (negRef : Option (List String))
       (pts : Vec3 × Vec3 × Vec3) (obj : MObj) (pos : Vec3) (q : Quat4)
       (placed : Table) (s : String) (rp : Vec3) (rq : Quat4) (ro : MObj),
       u.ensureValid = true → rc.spawnRef = some ro →
       (s, (rp, rq, ro)) ∈ placed →
       P.objsIntersect obj pos (toXYZW q) ro rp (toXYZW rq) = false →
       runChecks P u rc negRef pts obj pos q placed ≠ .pass)
    ∧ (∀ (P : Prims) (u : UCfg) (tbl : Table) (s : String) (sid : ℤ)
       (negRef : Option (List String)) (onTop : Bool) (store : Store) (rng : Rng)
       (out : Table) (st2 : Store) (rng2 : Rng) (rp : Vec3) (rq : Quat4) (ro : MObj)
       (e : String × Placement),
       u.ensureValid = true →
       sampleUniform P u tbl (some (.bySpawn s sid)) negRef onTop store rng
         = ⟨.ok out, st2, rng2⟩ →
       lookupTbl tbl s = some (rp, rq, ro) →
       e ∈ out → lookupTbl tbl e.1 = none →
       P.objsIntersect e.2.2.2 e.2.1 (toXYZW e.2.2.1) ro rp (toXYZW rq) = true) := by
  constructor
  · intro P u rc negRef pts obj pos q placed s rp rq ro hv hsr hmem hni hp
    have hov := runChecks_pass_no_overlap hv hp
    rw [hsr] at hov
    have := overlapViolation_false_owner hmem hov
    rw [this] at hni
    exact Bool.noConfusion hni
  · intro P u tbl s sid negRef onTop store rng out st2 rng2 rp rq ro e hv h hl he hnew
    obtain ⟨rc, rngR, hres, hplace⟩ := sampleUniform_ok_char h
    have hsr : rc.spawnRef = some ro := resolveRef_spawn_spawnRef hres hl
    obtain ⟨char, _, _⟩ :=
      placeObjs_ok_char P u rc negRef onTop u.objects tbl rngR out rng2 hplace
    rcases char e he with hin | ⟨_, _, p0, g, r2x, hsup, hcommit⟩
    · have h2 := lookupTbl_isSome_of_mem tbl e hin
      rw [hnew] at h2
      exact absurd h2 (by simp)
    · have hpass := (attemptOnce_commit hcommit).2.2
      have hov := runChecks_pass_no_overlap hv hpass
      rw [hsr] at hov
      exact overlapViolation_false_owner (hsup _ (lookupTbl_mem tbl s _ hl)) hov

/-- Witness for C10: with an all-intersecting oracle, D committed on spawn
0 of A intersects A; with a never-intersecting oracle, the same candidate
can never pass the checks. -/
theorem spawn_reference_requires_owner_intersection_witness :
    runChecks trivPrims uD ⟨(0, 0, 1/2), some objA, .named "A"⟩ none
      (regionPoints trivPrims uD (0, 0, 1/2)) objD (0, 0, 1/2) (1, 0, 0, 0) tblA
      ≠ .pass
    ∧ ixPrims.objsIntersect objD (0, 0, 1/2) (toXYZW (1, 0, 0, 0)) objA (0, 0, 0)
      (toXYZW (1, 0, 0, 0)) = true :=
  ⟨spawn_reference_requires_owner_intersection.1 trivPrims uD
      ⟨(0, 0, 1/2), some objA, .named "A"⟩ none
      (regionPoints trivPrims uD (0, 0, 1/2)) objD (0, 0, 1/2) (1, 0, 0, 0) tblA
      "A" (0, 0, 0) (1, 0, 0, 0) objA rfl rfl
      (by simp [tblA]) rfl,
   spawn_reference_requires_owner_intersection.2 ixPrims uD tblA "A" 0 none true
      [] ⟨[], []⟩
      [("A", ((0, 0, 0), (1, 0, 0, 0), objA)), ("d", ((0, 0, 1/2), (1, 0, 0, 0), objD))]
      [("A", [false, true])] ⟨[], []⟩ (0, 0, 0) (1, 0, 0, 0) objA
      ("d", ((0, 0, 1/2), (1, 0, 0, 0), objD)) rfl
      (by norm_num +decide [sampleUniform, resolveRef, placeObjs, attemptLoop,
        attemptOnce, runChecks, sampleQuatU, sampleRotAngle, axisQuat,
        regionPoints, Rng.uniform, Rng.nextReal, lookupTbl, tblA, objA, objD,
        uD, ixPrims, toXYZW, toWXYZ, overlapViolation, negCheck, pyIndex,
        setSpawnInactive, getFlags, vadd])
      (by norm_num +decide [lookupTbl, tblA])
      (by simp)
      (by norm_num +decide [lookupTbl, tblA])⟩

/-- C9: determinism.  In this embedding every input a sampler call reads is
explicit (the oracle, the sampler with its registered dicts, the table, the
call arguments, the spawn store, and the generator state), so two calls
with equal inputs yield equal outputs, for the uniform and composite kinds
(`sampleNode`) and for `MultiRegionSampler.sample` alike. -/
theorem sample_deterministic
    (P : Prims) (s1 s2 : PSampler) (t1 t2 : Table) (r1 r2 : Option Ref)
    (n1 n2 : Option (List String)) (o1 o2 d1 d2 : Bool) (st1 st2 : Store)
    (g1 g2 : Rng) (m1 m2 : MRSampler) (mt1 mt2 : Table) (mr1 mr2 : Option Ref)
    (mo1 mo2 : Bool) (ms1 ms2 : Store)
    (hs : s1 = s2) (ht : t1 = t2) (hr : r1 = r2) (hn : n1 = n2) (ho : o1 = o2)
    (hd : d1 = d2) (hst : st1 = st2) (hg : g1 = g2) (hm : m1 = m2)
    (hmt : mt1 = mt2) (hmr : mr1 = mr2) (hmo : mo1 = mo2) (hms : ms1 = ms2) :
    sampleNode P s1 t1 r1 n1 o1 d1 st1 g1 = sampleNode P s2 t2 r2 n2 o2 d2 st2 g2
    ∧ multiRegionSample P m1 mt1 mr1 mo1 ms1 = multiRegionSample P m2 mt2 mr2 mo2 ms2 := by
  subst hs ht hr hn ho hd hst hg hm hmt hmr hmo hms
  exact ⟨rfl, rfl⟩

/-- Witness for C9 at concrete equal inputs. -/
theorem sample_deterministic_witness :
    sampleNode trivPrims (.uniform uM) [] none none true false [] ⟨[], []⟩
      = sampleNode trivPrims (.uniform uM) [] none none true false [] ⟨[], []⟩
    ∧ multiRegionSample trivPrims mrQuad [] none true []
      = multiRegionSample trivPrims mrQuad [] none true [] :=
  sample_deterministic trivPrims (.uniform uM) (.uniform uM) [] [] none none
    none none true true false false [] [] ⟨[], []⟩ ⟨[], []⟩ mrQuad mrQuad [] []
    none none true true [] [] rfl rfl rfl rfl rfl rfl rfl rfl rfl rfl rfl rfl rfl

/-- C4: when the sub-sampler at any position of a composite exhausts its
retries (RandomizationError), a mandatory registration propagates the
failure immediately — the run ends at that child and the composite returns
the error — while an optional registration swallows it: the run continues
with the remaining children from the same accumulated table, and when they
succeed the composite call succeeds with a table containing none of the
failed sub-sampler's objects (given the usual disjointness of ownership and
a configuration without registered `placed_objects` keys). -/
theorem optional_failure_swallowed_mandatory_aborts
    (P : Prims) (cnm key : String) (pre post : ChildList) (c : PSampler)
    (args : Option SArgs) (opt : Bool) (tbl t1 : Table) (ref : Option Ref)
    (onTop : Bool) (st st1 stC : Store) (g g1 gC : Rng) (u1 : ChildList)
    (tr1 : List (String × Option Ref × Bool)) (cupd : PSampler)
    (ctr : List (String × Option Ref × Bool)) (m : String)
    (hpre : sampleChildren P pre tbl ref onTop st g = ⟨.ok t1, st1, g1, u1, tr1⟩)
    (hchild : sampleNode P c (effChild args t1 ref onTop).callTbl
        (effChild args t1 ref onTop).effRef (effChild args t1 ref onTop).effNeg
        (effChild args t1 ref onTop).effTop (effChild args t1 ref onTop).dupPlaced
        st1 g1 = ⟨.error (.randomization m), stC, gC, cupd, ctr⟩) :
    (opt = false →
      (sampleNode P (.composite cnm (appendCL pre (.cons key c args opt post))) tbl
        ref none onTop false st g).res = .error (.randomization m)
      ∧ (sampleNode P (.composite cnm (appendCL pre (.cons key c args opt post))) tbl
        ref none onTop false st g).trace
        = tr1 ++ [(key, (effChild args t1 ref onTop).effRef,
            (effChild args t1 ref onTop).effTop)])
    ∧ (opt = true →
      ∀ (t2 : Table) (st3 : Store) (g3 : Rng) (u3 : ChildList)
        (tr3 : List (String × Option Ref × Bool)),
      sampleChildren P post t1 ref onTop stC gC = ⟨.ok t2, st3, g3, u3, tr3⟩ →
      cleanChildren pre = true → cleanChildren post = true →
      (∀ k, k ∈ objNamesNode c →
        ¬ k ∈ keysOf tbl ∧ ¬ k ∈ objNamesChildren pre ∧ ¬ k ∈ objNamesChildren post) →
      ∃ t3, (sampleNode P (.composite cnm (appendCL pre (.cons key c args opt post)))
          tbl ref none onTop false st g).res = .ok t3
        ∧ ∀ k, k ∈ objNamesNode c → ¬ k ∈ keysOf t3) := by
  constructor
  · intro hopt
    subst hopt
    have hsuffix : sampleChildren P (.cons key c args false post) t1 ref onTop st1 g1
        = ⟨.error (.randomization m), stC, gC,
           .cons key cupd (effChild args t1 ref onTop).args2 false post,
           [(key, (effChild args t1 ref onTop).effRef,
             (effChild args t1 ref onTop).effTop)]⟩ := by
      rw [sampleChildren_cons]
      dsimp only
      rw [hchild]
      rfl
    have hrun := sampleChildren_append_ok P pre (.cons key c args false post) tbl
      ref onTop st g t1 st1 g1 u1 tr1 hpre
    rw [hsuffix] at hrun
    dsimp only at hrun
    rw [sampleNode_composite]
    dsimp only
    rw [hrun]
    exact ⟨rfl, rfl⟩
  · intro hopt t2 st3 g3 u3 tr3 hpost hcpre hcpost hdisj
    subst hopt
    have hsuffix : sampleChildren P (.cons key c args true post) t1 ref onTop st1 g1
        = ⟨.ok t2, st3, g3,
           .cons key cupd (effChild args t1 ref onTop).args2 true u3,
           (key, (effChild args t1 ref onTop).effRef,
             (effChild args t1 ref onTop).effTop) :: tr3⟩ := by
      rw [sampleChildren_cons]
      dsimp only
      rw [hchild]
      show (⟨(sampleChildren P post t1 ref onTop stC gC).res,
        (sampleChildren P post t1 ref onTop stC gC).store,
        (sampleChildren P post t1 ref onTop stC gC).rng,
        .cons key cupd (effChild args t1 ref onTop).args2 true
          (sampleChildren P post t1 ref onTop stC gC).updated,
        (key, (effChild args t1 ref onTop).effRef,
          (effChild args t1 ref onTop).effTop) ::
          (sampleChildren P post t1 ref onTop stC gC).trace⟩ : ChOut) = _
      rw [hpost]
    have hrun := sampleChildren_append_ok P pre (.cons key c args true post) tbl
      ref onTop st g t1 st1 g1 u1 tr1 hpre
    rw [hsuffix] at hrun
    dsimp only at hrun
    rw [sampleNode_composite]
    dsimp only
    rw [hrun]
    dsimp only
    refine ⟨_, rfl, ?_⟩
    intro k hk hk3
    have h5 := mem_keysOf_filter_memS.1 hk3
    obtain ⟨p1, _, _⟩ := sampleChildren_ok_keys P post t1 ref onTop stC gC t2 st3
      g3 u3 tr3 hcpost hpost
    obtain ⟨q1, _, _⟩ := sampleChildren_ok_keys P pre tbl ref onTop st g t1 st1 g1
      u1 tr1 hcpre hpre
    obtain ⟨hd1, hd2, hd3⟩ := hdisj k hk
    rcases p1 k h5.1 with h6 | h6
    · rcases q1 k h6 with h7 | h7
      · exact hd1 h7
      · exact hd2 h7
    · exact hd3 h6

/-- Witness for C4: the optional clutter child fails after the mandatory
main child placed m; the composite call succeeds and its result omits the
clutter object c. -/
theorem optional_failure_swallowed_mandatory_aborts_witness :
    ∃ t3, (sampleNode trivPrims (.composite "T4" (appendCL pre4
        (.cons "clutter" (.uniform uC) none true .nil))) [] none none true false []
        ⟨[], []⟩).res = .ok t3
      ∧ ∀ k, k ∈ objNamesNode (.uniform uC) → ¬ k ∈ keysOf t3 :=
  (optional_failure_swallowed_mandatory_aborts trivPrims "T4" "clutter" pre4 .nil
    (.uniform uC) none true [] tblM none true [] [] [] ⟨[], []⟩ ⟨[], []⟩ ⟨[], []⟩
    pre4 [("main", none, true)] (.uniform uC) [] "c"
    (by norm_num +decide [sampleChildren, sampleNode, effChild, pre4, uM, mkU,
      objM, sampleUniform, resolveRef, placeObjs, attemptLoop, attemptOnce,
      runChecks, sampleQuatU, sampleRotAngle, axisQuat, regionPoints,
      Rng.uniform, Rng.nextReal, lookupTbl, updateTbl, insertTbl, tblM,
      trivPrims, toXYZW, toWXYZ, overlapViolation, negCheck])
    (by rfl)).2 rfl tblM [] ⟨[], []⟩ .nil []
    (by rfl) (by rfl) (by rfl)
    (by
      intro k hk
      refine ⟨?_, ?_, ?_⟩
      · exact fun h2 => absurd h2 (by simp [keysOf])
      · intro h2
        have hk2 : k = "c" := by
          simpa [objNamesNode, uC, mkU, objC] using hk
        rw [hk2] at h2
        exact absurd h2 (by norm_num +decide [objNamesChildren, objNamesNode,
          pre4, uM, mkU, objM])
      · exact fun h2 => absurd h2 (by simp [objNamesChildren]))

/-- C5 (amended): for a successful composite call whose configuration
registers no `placed_objects` keys and whose input table's keys are
disjoint from the owned object names, the returned delta holds entries only
for transitively owned objects (no pre-existing fixture), and an entry for
every object whose whole registration chain is mandatory; objects owned
through an optional descendant registration may be absent. -/
theorem composite_delta_owned_and_mandatory
    (P : Prims) (cnm : String) (cs : ChildList) (tbl : Table) (ref : Option Ref)
    (onTop : Bool) (st : Store) (g : Rng) (delta : Table) (st2 : Store) (g2 : Rng)
    (sA : PSampler) (tr : List (String × Option Ref × Bool))
    (h : sampleNode P (.composite cnm cs) tbl ref none onTop false st g
      = ⟨.ok delta, st2, g2, sA, tr⟩)
    (hclean : cleanChildren cs = true)
    (hdisj : ∀ k, k ∈ keysOf tbl → ¬ k ∈ objNamesChildren cs) :
    (∀ k, k ∈ keysOf delta → k ∈ objNamesChildren cs)
    ∧ (∀ k, k ∈ keysOf tbl → ¬ k ∈ keysOf delta)
    ∧ (∀ k, k ∈ mandNamesChildren cs → k ∈ keysOf delta) := by
  rw [sampleNode_composite] at h
  dsimp only at h
  rcases hch : sampleChildren P cs tbl ref onTop st g with ⟨cres, cst, cg, cupd, ctr⟩
  rw [hch] at h
  cases cres with
  | error e => exact absurd (congrArg NodeOut.res h) (by simp)
  | ok full =>
      dsimp only at h
      have hout : List.filter (fun e => memS (objNamesChildren cupd) e.1) full
          = delta := by
        have h2 := congrArg NodeOut.res h
        simpa using h2
      have hpres : objNamesChildren cupd = objNamesChildren cs := by
        have h3 := objNames_children_preserved P cs tbl ref onTop st g
        rw [hch] at h3
        exact h3
      obtain ⟨c1, c2, c3⟩ := sampleChildren_ok_keys P cs tbl ref onTop st g full
        cst cg cupd ctr hclean hch
      have own : ∀ k, k ∈ keysOf delta → k ∈ objNamesChildren cs := by
        intro k hk
        rw [← hout] at hk
        have hm := (mem_keysOf_filter_memS.1 hk).2
        rw [hpres] at hm
        exact hm
      refine ⟨own, ?_, ?_⟩
      · intro k hk hk2
        exact hdisj k hk (own k hk2)
      · intro k hk
        rw [← hout]
        refine mem_keysOf_filter_memS.2 ⟨c2 k hk, ?_⟩
        rw [hpres]
        exact mandNames_sub_children cs k hk

/-- Witness for the amended C5 at the nested concrete composite: the
returned delta for the successful `topC` call holds only owned names, no
fixture, and every fully-mandatory object (here m). -/
theorem composite_delta_owned_and_mandatory_witness :
    (∀ k, k ∈ keysOf tblM → k ∈ objNamesChildren (.cons "C" innerC none false .nil))
    ∧ (∀ k, k ∈ keysOf ([] : Table) → ¬ k ∈ keysOf tblM)
    ∧ (∀ k, k ∈ mandNamesChildren (.cons "C" innerC none false .nil)
        → k ∈ keysOf tblM) :=
  composite_delta_owned_and_mandatory trivPrims "T"
    (.cons "C" innerC none false .nil) [] none true [] ⟨[], []⟩ tblM [] ⟨[], []⟩
    topC [("C", none, true)]
    (by norm_num +decide [sampleNode, sampleChildren, effChild, topC, innerC,
      uM, uO, mkU, objM, objO, sampleUniform, resolveRef, placeObjs,
      attemptLoop, attemptOnce, runChecks, sampleQuatU, sampleRotAngle,
      axisQuat, regionPoints, Rng.uniform, Rng.nextReal, lookupTbl, updateTbl,
      insertTbl, memS, objNamesChildren, objNamesNode, trivPrims, toXYZW,
      toWXYZ, overlapViolation, negCheck, tblM])
    (by rfl)
    (fun k hk => absurd hk (List.not_mem_nil k))

end Robocasa
